import Mathlib

/-!
# Verification of the poker server betting engine (`src/server/src/pokerGame.ts`)

This file is a shallow embedding, in Lean 4, of the room/round state machine of
the poker server, together with theorems settling the specification claims.

Modelling conventions, chosen to follow the TypeScript source faithfully:

* JS objects become structures.  Fields that the source may delete or leave
  `undefined` (`Room.players` after `cutPlayers`, `PlayerStatus.deck` after
  `cutPlayersCards`, `GameStatus.cards` after `cutRoomCards`) are `Option`s.
* Chip quantities (`balance`, `pot`, `totalBetAmout`, `subTotalBetAmount`,
  `currentBetAmount`, `winAmount`, raise amounts) are `Int`, matching JS
  arithmetic on these integer-valued numbers, including subtraction.
* A function that can crash (property access on `undefined`) or hang (the
  `while (true)` turn search when no eligible seat exists) returns `Option`;
  `none` means the JS call never produces a value.
* The external hand evaluator (`pokersolver`'s `Hand`) is modelled by a pure
  ranking function `rank : List Nat → Nat` (larger = stronger), supplied as a
  parameter.  A solved hand is represented as the pair (seat index, rank);
  the seat component models JS object identity, which `hands.indexOf(winner)`
  relies on.  `Hand.winners` is modelled as the maximal-rank hands of the
  input, in input order.
* `Math.random`-driven values (`rand`) become explicit parameters, and wall
  clock reads (`new Date().getTime()`) become a `now : Nat` parameter.
-/

namespace PokerGame

/-- `PlayStatus` enum from `types.ts` (as used by `pokerGame.ts`). -/
inductive PlayStatus where
  | NONE | CALL | RAISE | CHECK | FOLD | ALLIN | BUST
deriving DecidableEq, Repr

/-- Per-round status of a seated player (`PlayerStatus`).  `deck` holds the two
hole cards; it is `Option` because the redacted views delete it.  `handType`
stores the winning hand descriptor assigned at settlement (we keep the rank
value instead of the display name of the hand). -/
structure PlayerStatus where
  totalBetAmout : Int
  subTotalBetAmount : Int
  status : PlayStatus
  deck : Option (List Nat)
  winAmount : Int
  handType : Option Nat := none
deriving DecidableEq, Repr

/-- A player (`Player`). -/
structure Player where
  id : String
  name : String
  balance : Int
  roomId : Option String := none
  playerStatus : Option PlayerStatus := none
deriving DecidableEq, Repr

/-- Per-round game state owned by a room (`GameStatus`). -/
structure GameStatus where
  round : Nat
  roundFinished : Bool
  currentBetAmount : Int
  pot : Int
  blindTurn : Nat
  playTurn : Nat
  deck : List Nat
  cards : Option (List Nat)
  timestamp : Nat
deriving DecidableEq, Repr

/-- A room (`Room`).  `players` is `Option` because `cutPlayers` deletes it. -/
structure Room where
  id : String
  name : String
  creator : Player
  started : Bool
  numberOfPlayers : Nat
  players : Option (List Player)
  gameStatus : Option GameStatus := none
deriving DecidableEq, Repr

/-! ## Redacted views (`cutPlayers`, `cutGameStatus`, `cutPlayersCards`, `cutRoomCards`) -/

/-- `cutPlayers`: drop the seat list. -/
def cutPlayers (room : Room) : Room := { room with players := none }

/-- `cutGameStatus`: drop the game state. -/
def cutGameStatus (room : Room) : Room := { room with gameStatus := none }

/-- Per-player part of `cutPlayersCards`: remove the hole cards from
`playerStatus`; a player without `playerStatus` is returned unchanged. -/
def cutPlayerCard (p : Player) : Player :=
  match p.playerStatus with
  | none => p
  | some ps => { p with playerStatus := some { ps with deck := none } }

/-- `cutPlayersCards`: redact every seat's hole cards.  Calling it on a room
whose `players` field was deleted would throw in JS (`players.map` on
`undefined`), hence the `Option` result. -/
def cutPlayersCards (room : Room) : Option Room :=
  match room.players with
  | none => none
  | some ps => some { room with players := some (ps.map cutPlayerCard) }

/-- `cutRoomCards`: remove the undealt stock (`gameStatus.cards`); if there is
no game status or no `cards` field the room is returned unchanged. -/
def cutRoomCards (room : Room) : Room :=
  match room.gameStatus with
  | none => room
  | some gs =>
    match gs.cards with
    | none => room
    | some _ => { room with gameStatus := some { gs with cards := none } }

/-! ## Turn sequencing (`nextTurn`, `prevTurn`)

The JS loop `while (true) { turn = (turn ± 1 + …) % numberOfPlayers; … }`
steps through seats until it finds one whose status is not FOLD/BUST/ALLIN
(or one without a `playerStatus`, on which it also breaks).  The orbit of the
step map is periodic with period `numberOfPlayers`, so the loop terminates if
and only if it terminates within `numberOfPlayers` steps; we therefore run
the search with that much fuel, `none` meaning the JS loop hangs (or crashes
reading `room.players[turn]` out of range). -/

/-- One seat is stepped as `turn ↦ (turn + c) % n`; `c = 1` gives `nextTurn`'s
step and `c = n - 1` gives `prevTurn`'s step `(turn - 1 + n) % n`. -/
def findEligible (ps : List Player) (n c : Nat) : Nat → Nat → Option Nat
  | 0, _ => none
  | fuel + 1, turn =>
    let t := (turn + c) % n
    match ps.get? t with
    | none => none
    | some p =>
      match p.playerStatus with
      | none => some t
      | some pst =>
        if pst.status = PlayStatus.FOLD ∨ pst.status = PlayStatus.BUST ∨
            pst.status = PlayStatus.ALLIN then
          findEligible ps n c fuel t
        else some t

/-- The starting seat of a turn search: the JS `if (!turn) turn =
gameStatus.playTurn` treats both a missing argument and the seat number `0`
as absent (zero is falsy). -/
def turnStart (playTurn : Nat) : Option Nat → Nat
  | none => playTurn
  | some 0 => playTurn
  | some t => t

/-- `nextTurn(room, turn?)`. -/
def nextTurn (room : Room) (turn? : Option Nat) : Option Nat :=
  match room.gameStatus with
  | none => some 0
  | some gs =>
    match room.players with
    | none => none
    | some ps =>
      findEligible ps room.numberOfPlayers 1 room.numberOfPlayers
        (turnStart gs.playTurn turn?)

/-- `prevTurn(room, turn?)`. -/
def prevTurn (room : Room) (turn? : Option Nat) : Option Nat :=
  match room.gameStatus with
  | none => some 0
  | some gs =>
    match room.players with
    | none => none
    | some ps =>
      findEligible ps room.numberOfPlayers (room.numberOfPlayers - 1)
        room.numberOfPlayers (turnStart gs.playTurn turn?)

/-- Whether seat `t` exists, has a `playerStatus`, and that status is not
FOLD/BUST/ALLIN — the seats on which the turn search `break`s eligibly. -/
def isEligible (ps : List Player) (t : Nat) : Bool :=
  match ps.get? t with
  | none => false
  | some p =>
    match p.playerStatus with
    | none => false
    | some pst =>
      !(pst.status = PlayStatus.FOLD ∨ pst.status = PlayStatus.BUST ∨
        pst.status = PlayStatus.ALLIN : Bool)

/-! ## Turn-timer callbacks

Both `setTimeout` callbacks (the one armed in `startNewRound` and the one
armed at the end of `updateGameStatus`) fire after `PLAYER_WAIT_TIME` and, if
the turn timestamp is unchanged, submit an action for the current `playTurn`
seat through `updateGameStatus`.  We model the action each callback submits
at fire time; `none` means the callback returns without submitting (missing
game status, player, or player status). -/

/-- Action submitted by the timer armed at the end of `updateGameStatus`
(lines 503–518): CHECK when the seat already matches `currentBetAmount`,
otherwise FOLD. -/
def timeoutActionAfterAction (room : Room) : Option PlayStatus :=
  match room.gameStatus with
  | none => none
  | some gs =>
    match room.players with
    | none => none
    | some ps =>
      match ps.get? gs.playTurn with
      | none => none
      | some p =>
        match p.playerStatus with
        | none => none
        | some pst =>
          some (if pst.subTotalBetAmount = gs.currentBetAmount
                then PlayStatus.CHECK else PlayStatus.FOLD)

/-- Action submitted by the timer armed in `startNewRound` (lines 281–292):
unconditionally FOLD. -/
def timeoutActionAtRoundStart (room : Room) : Option PlayStatus :=
  match room.gameStatus with
  | none => none
  | some gs =>
    match room.players with
    | none => none
    | some ps =>
      match ps.get? gs.playTurn with
      | none => none
      | some p =>
        match p.playerStatus with
        | none => none
        | some _ => some PlayStatus.FOLD

/-! ## Pot settlement (`checkWinning`)

`hands[i]` is the solved hand of seat `i` (or `null` for a seat that folded,
busted, or has no status).  A solved hand is modelled as `(i, rank of the
seat's 7 cards)`; the seat component stands for JS object identity.
`Hand.winners` is modelled as the maximal-rank entries, in input order. -/

/-- `Hand.solve` result for one seat: `some (i, rank)` for a live seat,
`none` for the `null` pushed for FOLD/BUST/missing-status seats.  A live seat
whose hole cards were deleted would make the JS spread
`[...playerStatus?.deck, ...]` throw, hence the outer `Option`. -/
def handFor (rank : List Nat → Nat) (board : List Nat) (i : Nat) (p : Player) :
    Option (Option (Nat × Nat)) :=
  match p.playerStatus with
  | none => some none
  | some pst =>
    if pst.status ≠ PlayStatus.BUST ∧ pst.status ≠ PlayStatus.FOLD then
      match pst.deck with
      | none => none
      | some d => some (some (i, rank (d ++ board)))
    else some none

/-- The rank that `Hand.winners` selects: the maximum rank among the remaining
hands (`Math.max` over the ranks, with 0 for an empty list). -/
def maxRank (subHands : List (Nat × Nat)) : Nat :=
  (subHands.map (fun h => h.2)).foldr max 0

/-- `maxWinAmount` accumulation (lines 338–346): the winner's own
`totalBetAmout`, plus `min(totalBetAmout, that seat's totalBetAmout)` for
every seat that still holds a claim (`remainingIndexes`) or is BUST/FOLD. -/
def contribSum (ps : List Player) (subSeats : List Nat) (total : Int) : Int :=
  (List.range ps.length).foldl
    (fun acc j =>
      match ps.get? j with
      | none => acc
      | some p =>
        match p.playerStatus with
        | none => acc
        | some pstj =>
          if subSeats.contains j ∨ pstj.status = PlayStatus.BUST ∨
              pstj.status = PlayStatus.FOLD then
            acc + min total pstj.totalBetAmout
          else acc)
    0

/-- Credit one co-winner (body of the `winners.forEach` at lines 332–354).
`winnersLeft` is `winners.length - index`, the number of co-winners not yet
credited (current one included). -/
def creditWinner (subSeats : List Nat) (winnersLeft : Nat) (seat rankVal : Nat)
    (ps : List Player) (pot : Int) : List Player × Int :=
  match ps.get? seat with
  | none => (ps, pot)
  | some p =>
    match p.playerStatus with
    | none => (ps, pot)
    | some pst =>
      let total := pst.totalBetAmout
      let maxWinAmount := total + contribSum ps subSeats total
      let winAmount := min maxWinAmount (pot.fdiv (winnersLeft : Int))
      (ps.set seat
        { p with balance := p.balance + winAmount,
                 playerStatus := some { pst with
                   winAmount := pst.winAmount + winAmount,
                   handType := some rankVal } },
       pot - winAmount)

/-- Credit a whole tier of co-winners, in order. -/
def creditTier (subSeats : List Nat) :
    List (Nat × Nat) → List Player → Int → List Player × Int
  | [], ps, pot => (ps, pot)
  | w :: rest, ps, pot =>
    let r := creditWinner subSeats (rest.length + 1) w.1 w.2 ps pot
    creditTier subSeats rest r.1 r.2

/-- The `while (gameStatus.pot)` settlement loop.  Each iteration removes the
whole best tier from `subHands`, so `subHands.length + 1` fuel is enough for
every run the JS loop completes. -/
def settleLoop : Nat → List (Nat × Nat) → List Player → Int → List Player × Int
  | 0, _, ps, pot => (ps, pot)
  | fuel + 1, subHands, ps, pot =>
    if pot = 0 then (ps, pot)
    else if subHands.isEmpty then (ps, pot)
    else
      let m := maxRank subHands
      let winners := subHands.filter (fun h => h.2 == m)
      let rest := subHands.filter (fun h => !(h.2 == m))
      let r := creditTier (rest.map (fun h => h.1)) winners ps pot
      settleLoop fuel rest r.1 r.2

/-- `checkWinning`: rank the live seats, run the settlement loop, and mark the
round finished.  The inter-round restart scheduled by `setTimeout` and the
broadcasts are outside this state transition. -/
def checkWinning (rank : List Nat → Nat) (room : Room) : Option Room :=
  match room.gameStatus with
  | none => some room
  | some gs =>
    match room.players with
    | none => none
    | some ps =>
      match ps.enum.mapM (fun ip => handFor rank gs.deck ip.1 ip.2) with
      | none => none
      | some hands =>
        let subHands := hands.reduceOption
        let r := settleLoop (subHands.length + 1) subHands ps gs.pot
        some { room with
          players := some r.1,
          gameStatus := some { gs with pot := r.2, roundFinished := true } }

/-! ## Street dealing (`dealCards`) -/

/-- The street reset applied to every seat at the top of `dealCards`: fold
`subTotalBetAmount` into `totalBetAmout`. -/
def foldSubTotal (p : Player) : Player :=
  match p.playerStatus with
  | none => p
  | some pst =>
    { p with playerStatus := some { pst with
        totalBetAmout := pst.totalBetAmout + pst.subTotalBetAmount,
        subTotalBetAmount := 0 } }

/-- `dealCards(room)`: fold the street bets, reset `currentBetAmount` (the
reset happens inside the `forEach`, so an empty seat list skips it), move
`playTurn` past the blind, then reveal the flop / one card, or settle via
`checkWinning` when the board already has 5 cards.  Returns the new room and
the JS return value (`true` exactly when the round was settled). -/
def dealCards (rank : List Nat → Nat) (room : Room) : Option (Room × Bool) :=
  match room.gameStatus with
  | none => some (room, false)
  | some gs =>
    match gs.cards with
    | none => some (room, false)
    | some cs =>
      match room.players with
      | none => none
      | some ps =>
        let ps₁ := ps.map foldSubTotal
        let gs₁ := if ps.isEmpty then gs else { gs with currentBetAmount := 0 }
        let room₁ := { room with players := some ps₁, gameStatus := some gs₁ }
        match nextTurn room₁ (some gs₁.blindTurn) with
        | none => none
        | some nt =>
          let gs₂ := { gs₁ with playTurn := nt }
          let room₂ := { room₁ with gameStatus := some gs₂ }
          if gs₂.deck.length = 5 then
            match checkWinning rank room₂ with
            | none => none
            | some room₃ => some (room₃, true)
          else
            let newDeck :=
              if gs₂.deck.length = 0 then
                [cs.getD 51 0, cs.getD 50 0, cs.getD 49 0]
              else gs₂.deck ++ [cs.getD (51 - gs₂.deck.length) 0]
            some ({ room₂ with gameStatus := some { gs₂ with deck := newDeck } },
                  false)

/-- The `while (!this.dealCards(room));` loop in the FOLD branch.  Starting
from any in-round board (≤ 5 cards) the loop performs at most 5 calls; more
fuel than that only matters for boards the game never produces, on which the
JS loop never terminates (`none`). -/
def runStreets (rank : List Nat → Nat) : Nat → Room → Option Room
  | 0, _ => none
  | fuel + 1, room =>
    match dealCards rank room with
    | none => none
    | some (room₁, flag) =>
      if flag then some room₁ else runStreets rank fuel room₁

/-! ## Action handling (`updateGameStatus`)

The socket-index lookup `this.players[getIndex(this.sockets, socket.id)]` is
abstracted by passing the acting session's player id `pid` directly; the
handler then proceeds exactly as the source: find the seat with that id,
check it is `playTurn` and that the round has cards, overwrite the seat's
status with the submitted action (line 422 — this happens before any
validation inside the branches), run the action branch, stamp the turn
timestamp, and broadcast unless `dealCards` settled the round.  The returned
`Bool` records whether the final broadcast of `updateGameStatus` ran. -/

/-- Overwrite the status field of the seat at index `pi`
(line 422, `playerStatus.status = status`). -/
def withStatus (room : Room) (pi : Nat) (s : PlayStatus) : Room :=
  match room.players with
  | none => room
  | some ps =>
    match ps.get? pi with
    | none => room
    | some p =>
      match p.playerStatus with
      | none => room
      | some pst =>
        { room with players := some (ps.set pi
            { p with playerStatus := some { pst with status := s } }) }

/-- `room.gameStatus.timestamp = new Date().getTime()` (line 492). -/
def setTimestamp (now : Nat) (room : Room) : Room :=
  match room.gameStatus with
  | none => room
  | some gs => { room with gameStatus := some { gs with timestamp := now } }

/-- Count of seats whose status is not FOLD/BUST/ALLIN (lines 466–476). -/
def countActive (ps : List Player) : Nat :=
  ps.countP (fun p =>
    match p.playerStatus with
    | none => false
    | some pst =>
      !(pst.status = PlayStatus.FOLD ∨ pst.status = PlayStatus.BUST ∨
        pst.status = PlayStatus.ALLIN : Bool))

/-- Shared tail of an action branch: check whether the next player already
matches `currentBetAmount` and if so settle the street (the pattern at lines
435–439 and 459–464). -/
def maybeDeal (rank : List Nat → Nat) (room : Room) : Option (Room × Bool) :=
  match room.gameStatus with
  | none => some (room, false)
  | some gs =>
    match room.players with
    | none => none
    | some ps =>
      match ps.get? gs.playTurn with
      | none => none
      | some nextPlayer =>
        let matched :=
          match nextPlayer.playerStatus with
          | none => false
          | some npst => npst.subTotalBetAmount == gs.currentBetAmount
        if matched then dealCards rank room else some (room, false)

/-- `updateGameStatus(socket, { roomId, status, amount })`, acting on one
room.  Result `some (room, broadcasted)`; `none` means the JS call crashed or
hung (turn search with no eligible seat). -/
def updateGameStatus (rank : List Nat → Nat) (now : Nat) (room : Room)
    (pid : String) (status : PlayStatus) (amount : Option Int) :
    Option (Room × Bool) :=
  match room.gameStatus with
  | none => some (room, false)
  | some gs =>
    match room.players with
    | none => none
    | some ps =>
      match ps.findIdx? (fun p => p.id == pid) with
      | none => some (room, false)
      | some pi =>
        if pi ≠ gs.playTurn then some (room, false)
        else match gs.cards with
        | none => some (room, false)
        | some _ =>
          match ps.get? pi with
          | none => none
          | some player =>
            match player.playerStatus with
            | none => some (room, false)
            | some pst =>
              let room₁ := withStatus room pi status
              let finish : Room × Bool → Option (Room × Bool) := fun rb =>
                some (setTimestamp now rb.1, !rb.2)
              match status with
              | PlayStatus.CALL =>
                let owed := gs.currentBetAmount - pst.subTotalBetAmount
                let clamp := player.balance < owed
                let betAmount := if clamp then player.balance else owed
                let pst₂ := { pst with
                  status := if clamp then PlayStatus.ALLIN else PlayStatus.CALL,
                  subTotalBetAmount := pst.subTotalBetAmount + betAmount }
                let ps₂ := ps.set pi
                  { player with balance := player.balance - betAmount,
                                playerStatus := some pst₂ }
                let gs₂ := { gs with pot := gs.pot + betAmount }
                let room₂ := { room with players := some ps₂, gameStatus := some gs₂ }
                match nextTurn room₂ none with
                | none => none
                | some nt =>
                  let room₃ := { room₂ with gameStatus := some { gs₂ with playTurn := nt } }
                  match maybeDeal rank room₃ with
                  | none => none
                  | some rb => finish rb
              | PlayStatus.RAISE =>
                match amount with
                | some a =>
                  if a ≠ 0 then
                    let betAmount := gs.currentBetAmount + a - pst.subTotalBetAmount
                    if player.balance < betAmount then some (room₁, false)
                    else
                      let pst₂ := { pst with
                        status := PlayStatus.RAISE,
                        subTotalBetAmount := pst.subTotalBetAmount + betAmount }
                      let ps₂ := ps.set pi
                        { player with balance := player.balance - betAmount,
                                      playerStatus := some pst₂ }
                      let gs₂ := { gs with
                        currentBetAmount := gs.currentBetAmount + a,
                        pot := gs.pot + betAmount }
                      let room₂ := { room with players := some ps₂, gameStatus := some gs₂ }
                      match nextTurn room₂ none with
                      | none => none
                      | some nt =>
                        finish ({ room₂ with
                          gameStatus := some { gs₂ with playTurn := nt } }, false)
                  else finish (room₁, false)
                | none => finish (room₁, false)
              | PlayStatus.CHECK =>
                match nextTurn room₁ none, nextTurn room₁ (some gs.blindTurn) with
                | some a, some b =>
                  if a = b then
                    match dealCards rank room₁ with
                    | none => none
                    | some rb => finish rb
                  else
                    match room₁.gameStatus with
                    | none => none
                    | some gs₁ =>
                      finish ({ room₁ with
                        gameStatus := some { gs₁ with playTurn := a } }, false)
                | _, _ => none
              | PlayStatus.FOLD =>
                match nextTurn room₁ none with
                | none => none
                | some nt =>
                  match room₁.gameStatus with
                  | none => none
                  | some gs₁ =>
                    let room₂ := { room₁ with
                      gameStatus := some { gs₁ with playTurn := nt } }
                    match maybeDeal rank room₂ with
                    | none => none
                    | some rb =>
                      match rb.1.players with
                      | none => none
                      | some ps₃ =>
                        if countActive ps₃ = 1 then
                          match runStreets rank 5 rb.1 with
                          | none => none
                          | some room₄ => finish (room₄, rb.2)
                        else finish rb
              | PlayStatus.ALLIN =>
                let pst₂ := { pst with
                  status := PlayStatus.ALLIN,
                  subTotalBetAmount := pst.subTotalBetAmount + player.balance }
                let gs₂ := { gs with
                  currentBetAmount :=
                    if gs.currentBetAmount < pst₂.subTotalBetAmount then
                      pst₂.subTotalBetAmount
                    else gs.currentBetAmount,
                  pot := gs.pot + player.balance }
                let ps₂ := ps.set pi
                  { player with balance := 0, playerStatus := some pst₂ }
                let room₂ := { room with players := some ps₂, gameStatus := some gs₂ }
                match nextTurn room₂ none with
                | none => none
                | some nt =>
                  finish ({ room₂ with
                    gameStatus := some { gs₂ with playTurn := nt } }, false)
              | _ => finish (room₁, false)

/-! ## Lobby state and `joinRoom` -/

/-- The parts of the `PokerGame` class state that `joinRoom` touches; the
socket array is index-aligned with `players`, so a session is identified by
its index. -/
structure ServerState where
  players : List Player
  rooms : List Room
deriving DecidableEq, Repr

/-- `joinRoom(socket, { roomId })`.  `idx` is the session's index in the
parallel `sockets`/`players` arrays.  Result `some (state, broadcasted)`;
`none` models the JS crashes (unknown room id → `getRoom` returns
`undefined`; unknown session → `newPlayer.id` on `undefined`; a room whose
`players` field is missing → `map` on `undefined`). -/
def joinRoom (st : ServerState) (idx : Nat) (roomId : String) :
    Option (ServerState × Bool) :=
  match st.rooms.findIdx? (fun r => r.id == roomId) with
  | none => none
  | some ri =>
    match st.rooms.get? ri with
    | none => none
    | some room =>
      if 10 ≤ room.numberOfPlayers then some (st, false)
      else
        match st.players.get? idx with
        | none => none
        | some newPlayer =>
          match room.players with
          | none => none
          | some rps =>
            if (rps.map (fun p => p.id)).contains newPlayer.id then
              some (st, false)
            else
              let newPlayer₁ := { newPlayer with roomId := some roomId }
              let room₁ := { room with
                numberOfPlayers := room.numberOfPlayers + 1,
                players := some (rps ++ [newPlayer₁]) }
              some ({ players := st.players.set idx newPlayer₁,
                      rooms := st.rooms.set ri room₁ }, true)

/-! ## Round start (`startNewRound`)

`shuffled` stands for `shuffleCards(cards)` and `randBlind` for
`rand(room.numberOfPlayers)` (used only when the room has no previous game
status).  `now` is the timestamp taken at line 279.  The `setTimeout` at
lines 281–292 is the callback modelled by `timeoutActionAtRoundStart`. -/

/-- First `forEach` (lines 250–262): give every seat a fresh `PlayerStatus`
with the hole cards at stock offsets `2*i` and `2*i + 1`. -/
def assignHoleCards (shuffled : List Nat) (ps : List Player) : List Player :=
  ps.enum.map (fun ip =>
    { ip.2 with playerStatus := some {
        totalBetAmout := 0,
        subTotalBetAmount := 0,
        status := PlayStatus.NONE,
        deck := some [shuffled.getD (ip.1 * 2) 0, shuffled.getD (ip.1 * 2 + 1) 0],
        winAmount := 0,
        handType := none } })

/-- One iteration of the blind `forEach` (lines 264–277) for seat `index`.
`prevTurn` is re-evaluated on the current room each iteration (after `||`
short-circuit), exactly as in the source. -/
def applyBlind (blindTurn index : Nat) (room : Room) : Option Room :=
  match room.gameStatus with
  | none => some room
  | some gs =>
    match room.players with
    | none => none
    | some ps =>
      match ps.get? index with
      | none => some room
      | some p =>
        match p.playerStatus with
        | none => some room
        | some pst =>
          let isBlind? : Option Bool :=
            if index = blindTurn then some true
            else
              match prevTurn room (some blindTurn) with
              | none => none
              | some pv => some (index = pv)
          match isBlind? with
          | none => none
          | some false => some room
          | some true =>
            let amount : Int := if index = blindTurn then 10 else 5
            let gs₁ :=
              if gs.currentBetAmount < amount then
                { gs with currentBetAmount := amount }
              else gs
            if amount ≤ p.balance then
              let p₁ := { p with
                balance := p.balance - amount,
                playerStatus := some { pst with subTotalBetAmount := amount } }
              some { room with
                gameStatus := some { gs₁ with pot := gs₁.pot + amount },
                players := some (ps.set index p₁) }
            else
              let p₁ := { p with
                playerStatus := some { pst with status := PlayStatus.BUST } }
              some { room with
                gameStatus := some gs₁,
                players := some (ps.set index p₁) }

/-- Run the blind `forEach` over seats `0, …, k-1`. -/
def applyBlinds (blindTurn : Nat) : Nat → Room → Option Room
  | 0, room => some room
  | k + 1, room =>
    match applyBlinds blindTurn k room with
    | none => none
    | some room₁ => applyBlind blindTurn k room₁

/-- Body of `startNewRound` once the blind seat and round number are fixed:
install the fresh `GameStatus`, deal hole cards, post the blinds, move
`playTurn` past the blind and stamp the start time. -/
def startRoundWith (shuffled : List Nat) (now rd blindTurn : Nat)
    (room : Room) : Option Room :=
  let gs : GameStatus := {
    round := rd,
    roundFinished := false,
    currentBetAmount := 0,
    pot := 0,
    blindTurn := blindTurn,
    playTurn := blindTurn,
    deck := [],
    cards := some shuffled,
    timestamp := 0 }
  match room.players with
  | none => none
  | some ps =>
    let room₁ := { room with
      gameStatus := some gs,
      players := some (assignHoleCards shuffled ps) }
    match applyBlinds blindTurn ps.length room₁ with
    | none => none
    | some room₂ =>
      match nextTurn room₂ (some blindTurn) with
      | none => none
      | some pt =>
        match room₂.gameStatus with
        | none => none
        | some gs₂ =>
          some { room₂ with
            gameStatus := some { gs₂ with playTurn := pt, timestamp := now } }

/-- `startNewRound(room)`: the blind seat advances past the previous blind
(or is drawn at random on the first round), the round counter advances, and
the body above runs. -/
def startNewRound (shuffled : List Nat) (randBlind : Nat) (now : Nat)
    (room : Room) : Option Room :=
  match (match room.gameStatus with
         | some gs₀ => nextTurn room (some gs₀.blindTurn)
         | none => some randBlind) with
  | none => none
  | some blindTurn =>
    startRoundWith shuffled now
      (match room.gameStatus with
       | some gs₀ => gs₀.round + 1
       | none => 1)
      blindTurn room

/-! ## Card stock and shuffle (`cards`, `shuffleCards`)

`shuffleCards` copies the 52-card stock and performs 1000 iterations, each
drawing two uniform positions `rand(52)` and swapping them.  The randomness
source is modelled as a function giving the pair of draws of each iteration. -/

/-- The global `cards` array: `0, 1, …, 51`. -/
def initialCards : List Nat := List.range 52

/-- One iteration body: swap positions `a` and `b`. -/
def swapAt (l : List Nat) (a b : Nat) : List Nat :=
  (l.set a (l.getD b 0)).set b (l.getD a 0)

/-- Apply the drawn swaps in order. -/
def applySwaps : List (Fin 52 × Fin 52) → List Nat → List Nat
  | [], l => l
  | p :: rest, l => applySwaps rest (swapAt l p.1.val p.2.val)

/-- `shuffleCards(cards)` under the randomness source `r`, where `r i` is the
pair `(location1, location2)` drawn at iteration `i`. -/
def shuffleCards (r : Fin 1000 → Fin 52 × Fin 52) : List Nat :=
  applySwaps ((List.finRange 1000).map r) initialCards

/-- "The output distribution is uniform over the 52-card orderings": every
two permutations of the stock are produced by equally many randomness
sources.  This is what "each of the 52! orderings equally likely given a
uniform randomness source" means for `shuffleCards`. -/
def ShuffleUniform : Prop :=
  ∀ p q : List Nat, p.Perm initialCards → q.Perm initialCards →
    (Finset.univ.filter
      (fun r : Fin 1000 → Fin 52 × Fin 52 => shuffleCards r = p)).card =
    (Finset.univ.filter
      (fun r : Fin 1000 → Fin 52 × Fin 52 => shuffleCards r = q)).card

/-! ## Chip sums -/

/-- Sum of the seat balances. -/
def balSum (ps : List Player) : Int := (ps.map (fun p => p.balance)).sum

/-- The conserved quantity of the engine: all seat balances plus the pot. -/
def chipSum (room : Room) : Int :=
  (match room.players with
   | some ps => balSum ps
   | none => 0) +
  (match room.gameStatus with
   | some gs => gs.pot
   | none => 0)

/-- Modelled from the spec: the quantity the specification claims is
conserved — `Σ(balance + totalBetAmout + subTotalBetAmount)` over all seats,
plus the pot. -/
def specChipSum (room : Room) : Int :=
  (match room.players with
   | some ps =>
     (ps.map (fun p =>
       p.balance +
       (match p.playerStatus with
        | some pst => pst.totalBetAmout + pst.subTotalBetAmount
        | none => 0))).sum
   | none => 0) +
  (match room.gameStatus with
   | some gs => gs.pot
   | none => 0)

/-! ## Concrete sample states used by witnesses and counterexamples -/

/-- A seated player with the given id, balance, bet amounts, status and hole
cards. -/
def mkPlayer (id : String) (bal tot sub : Int) (st : PlayStatus)
    (dk : List Nat) : Player :=
  { id := id, name := id, balance := bal,
    playerStatus := some { totalBetAmout := tot, subTotalBetAmount := sub,
                           status := st, deck := some dk, winAmount := 0 } }

/-- A two-seat room mid-street: seat 0 ("a") to act, big blind 10 posted by
seat 1's side, pot 15. -/
def sampleRoom : Room :=
  { id := "r", name := "r", creator := mkPlayer "a" 100 0 0 PlayStatus.NONE [0, 1],
    started := true, numberOfPlayers := 2,
    players := some [mkPlayer "a" 100 0 0 PlayStatus.NONE [0, 1],
                     mkPlayer "b" 50 0 5 PlayStatus.NONE [2, 3]],
    gameStatus := some { round := 1, roundFinished := false,
                         currentBetAmount := 10, pot := 15, blindTurn := 1,
                         playTurn := 0, deck := [], cards := some initialCards,
                         timestamp := 0 } }

/-- A constant hand ranking, for witnesses that never reach a showdown. -/
def rank0 : List Nat → Nat := fun _ => 0

/-! ## C9 — redaction idempotence -/

theorem cutPlayerCard_idem (p : Player) :
    cutPlayerCard (cutPlayerCard p) = cutPlayerCard p := by
  unfold cutPlayerCard
  cases h : p.playerStatus <;> simp [h]

/-- C9: the redaction projections are idempotent: `cutPlayers`,
`cutRoomCards` and `cutPlayersCards` applied twice give the same result as
applied once (for `cutPlayersCards`, which crashes on a room whose seat list
was already deleted, composition is Kleisli composition on `Option`). -/
theorem c9_redaction_idempotence (room : Room) :
    cutPlayers (cutPlayers room) = cutPlayers room ∧
    cutRoomCards (cutRoomCards room) = cutRoomCards room ∧
    (cutPlayersCards room).bind cutPlayersCards = cutPlayersCards room := by
  refine ⟨rfl, ?_, ?_⟩
  · cases hg : room.gameStatus with
    | none => simp [cutRoomCards, hg]
    | some gs =>
      cases hc : gs.cards with
      | none => simp [cutRoomCards, hg, hc]
      | some cs => simp [cutRoomCards, hg, hc]
  · cases hp : room.players with
    | none => simp [cutPlayersCards, hp]
    | some ps =>
      have hmap : (ps.map cutPlayerCard).map cutPlayerCard = ps.map cutPlayerCard := by
        rw [List.map_map]
        refine List.map_congr_left ?_
        intro a _
        simpa [Function.comp] using cutPlayerCard_idem a
      simp [cutPlayersCards, hp, hmap]

/-! ## C5 — timeout auto-action

The claim states that every armed deadline, including the one armed at round
start, resolves to CHECK when the seat already matches `currentBetAmount` and
to FOLD otherwise.  The timer armed at the end of `updateGameStatus` does
exactly that, but the timer armed in `startNewRound` (lines 281–292) submits
FOLD unconditionally. -/

/-- A room in which the seat to act already matches `currentBetAmount`:
two seats, small blind busted, so the big-blind seat (subTotal 10 =
currentBet 10) is back on turn.  Reachable from `startNewRound` with a
small blind short of 5 chips. -/
def timerRoom : Room :=
  { id := "r", name := "r", creator := mkPlayer "a" 90 0 10 PlayStatus.NONE [0, 1],
    started := true, numberOfPlayers := 2,
    players := some [mkPlayer "a" 90 0 10 PlayStatus.NONE [0, 1],
                     mkPlayer "b" 3 0 0 PlayStatus.BUST [2, 3]],
    gameStatus := some { round := 1, roundFinished := false,
                         currentBetAmount := 10, pot := 10, blindTurn := 0,
                         playTurn := 0, deck := [], cards := some initialCards,
                         timestamp := 0 } }

/-- C5 counterexample: a deadline armed at round start on a seat whose
`subTotalBetAmount` equals `currentBetAmount` does not auto-submit CHECK —
it submits FOLD. -/
theorem c5_counterexample :
    (∃ gs p pst, timerRoom.gameStatus = some gs ∧
      (timerRoom.players.getD [])[gs.playTurn]? = some p ∧
      p.playerStatus = some pst ∧
      pst.subTotalBetAmount = gs.currentBetAmount) ∧
    timeoutActionAtRoundStart timerRoom ≠ some PlayStatus.CHECK := by
  constructor
  · exact ⟨_, _, _, rfl, rfl, rfl, by decide⟩
  · decide

/-- C5 (amended): when a turn deadline expires, the timer armed by action
processing auto-submits CHECK if the `playTurn` seat's `subTotalBetAmount`
equals `currentBetAmount` and FOLD otherwise; the timer armed at round start
always auto-submits FOLD, even when the seat already matches
`currentBetAmount`. -/
theorem c5_timeout_auto_action (room : Room) (gs : GameStatus) (ps : List Player)
    (p : Player) (pst : PlayerStatus)
    (hg : room.gameStatus = some gs) (hp : room.players = some ps)
    (hget : ps[gs.playTurn]? = some p) (hpst : p.playerStatus = some pst) :
    timeoutActionAfterAction room =
      some (if pst.subTotalBetAmount = gs.currentBetAmount
            then PlayStatus.CHECK else PlayStatus.FOLD) ∧
    timeoutActionAtRoundStart room = some PlayStatus.FOLD := by
  constructor
  · simp [timeoutActionAfterAction, hg, hp, hget, hpst]
  · simp [timeoutActionAtRoundStart, hg, hp, hget, hpst]

/-- C5 witness: the amended theorem applied to `timerRoom`. -/
theorem c5_timeout_auto_action_witness :
    timeoutActionAfterAction timerRoom = some PlayStatus.CHECK ∧
    timeoutActionAtRoundStart timerRoom = some PlayStatus.FOLD := by
  have h := c5_timeout_auto_action timerRoom
    { round := 1, roundFinished := false, currentBetAmount := 10, pot := 10,
      blindTurn := 0, playTurn := 0, deck := [], cards := some initialCards,
      timestamp := 0 }
    [mkPlayer "a" 90 0 10 PlayStatus.NONE [0, 1],
     mkPlayer "b" 3 0 0 PlayStatus.BUST [2, 3]]
    (mkPlayer "a" 90 0 10 PlayStatus.NONE [0, 1])
    { totalBetAmout := 0, subTotalBetAmount := 10, status := PlayStatus.NONE,
      deck := some [0, 1], winAmount := 0 }
    rfl rfl rfl rfl
  simpa using h

/-! ## C10 — room capacity and duplicate-join rejection -/

/-- C10: `joinRoom` with a full room (10 or more seated players) or with a
player already seated in the target room leaves the server state unchanged and
emits no broadcast; otherwise it appends the player (with its `roomId` set) to
the seat list, increments `numberOfPlayers` by exactly 1, and broadcasts. -/
theorem c10_join_room (st : ServerState) (idx : Nat) (roomId : String)
    (ri : Nat) (room : Room) (newPlayer : Player) (rps : List Player)
    (hri : st.rooms.findIdx? (fun r => r.id == roomId) = some ri)
    (hroom : st.rooms[ri]? = some room)
    (hplayer : st.players[idx]? = some newPlayer)
    (hrps : room.players = some rps)
    (hcount : room.numberOfPlayers = rps.length) :
    joinRoom st idx roomId =
      some (if 10 ≤ rps.length then (st, false)
            else if (rps.map (fun p => p.id)).contains newPlayer.id then
              (st, false)
            else
              ({ players := st.players.set idx
                   { newPlayer with roomId := some roomId },
                 rooms := st.rooms.set ri
                   { room with
                     numberOfPlayers := rps.length + 1,
                     players := some
                       (rps ++ [{ newPlayer with roomId := some roomId }]) } },
               true)) := by
  simp only [joinRoom, List.get?_eq_getElem?, hri, hroom, hplayer, hrps, hcount]
  split_ifs <;> rfl

/-- C10 witness: a two-room-free server where "a" joins room "r1" that
already seats "b"; the seat is appended and the count goes from 1 to 2. -/
theorem c10_join_room_witness :
    joinRoom
      { players := [{ id := "a", name := "a", balance := 2000 },
                    { id := "b", name := "b", balance := 2000 }],
        rooms := [{ id := "r1", name := "r1",
                    creator := { id := "b", name := "b", balance := 2000 },
                    started := false, numberOfPlayers := 1,
                    players := some [{ id := "b", name := "b", balance := 2000 }] }] }
      0 "r1" =
    some ({ players := [{ id := "a", name := "a", balance := 2000,
                          roomId := some "r1" },
                        { id := "b", name := "b", balance := 2000 }],
            rooms := [{ id := "r1", name := "r1",
                        creator := { id := "b", name := "b", balance := 2000 },
                        started := false, numberOfPlayers := 2,
                        players := some [{ id := "b", name := "b", balance := 2000 },
                                         { id := "a", name := "a", balance := 2000,
                                           roomId := some "r1" }] }] },
          true) := by
  rw [c10_join_room _ 0 "r1" 0
    { id := "r1", name := "r1",
      creator := { id := "b", name := "b", balance := 2000 },
      started := false, numberOfPlayers := 1,
      players := some [{ id := "b", name := "b", balance := 2000 }] }
    { id := "a", name := "a", balance := 2000 }
    [{ id := "b", name := "b", balance := 2000 }]
    (by decide) (by decide) (by decide) rfl rfl]
  decide

/-! ## C3 — boundary atomicity of RAISE

The claim asserts that a RAISE whose required amount exceeds the balance is
rejected with zero state change, explicitly including `playerStatus.status`.
But line 422 (`playerStatus.status = status`) runs before the balance check,
so the rejected action leaves the acting seat's status overwritten to RAISE.
No other field changes and no broadcast is emitted. -/

/-- C3 counterexample: in `sampleRoom`, seat "a" (balance 100, subTotal 0,
currentBet 10) submits RAISE 200; the required amount 210 exceeds the
balance, the action is rejected without broadcast — but the resulting room
differs from the original: the seat's status is now RAISE. -/
theorem c3_counterexample :
    ∃ rb, updateGameStatus rank0 7 sampleRoom "a" PlayStatus.RAISE (some 200) =
        some rb ∧
      rb.2 = false ∧ rb.1 ≠ sampleRoom ∧
      ((rb.1.players.getD []).map
        (fun p => (p.playerStatus.map (fun pst => pst.status)).getD
          PlayStatus.NONE)) = [PlayStatus.RAISE, PlayStatus.NONE] := by
  refine ⟨_, rfl, rfl, by decide, by decide⟩

/-- C3 (amended): a RAISE whose required amount
(`currentBetAmount + amount − subTotalBetAmount`) exceeds the acting player's
balance is rejected without reaching the timestamp update or the broadcast,
and the only state change is that the acting seat's `playerStatus.status` has
already been overwritten to RAISE; balances, bet amounts, pot,
`currentBetAmount`, `playTurn` and every other field are unchanged. -/
theorem c3_raise_rejection (rank : List Nat → Nat) (now : Nat) (room : Room)
    (pid : String) (a : Int) (gs : GameStatus) (ps : List Player) (pi : Nat)
    (player : Player) (pst : PlayerStatus)
    (hg : room.gameStatus = some gs) (hp : room.players = some ps)
    (hidx : ps.findIdx? (fun p => p.id == pid) = some pi)
    (hturn : pi = gs.playTurn) (hcards : gs.cards.isSome)
    (hget : ps[pi]? = some player) (hpst : player.playerStatus = some pst)
    (ha : a ≠ 0)
    (hover : player.balance < gs.currentBetAmount + a - pst.subTotalBetAmount) :
    updateGameStatus rank now room pid PlayStatus.RAISE (some a) =
      some ({ room with
              players := some (ps.set pi
                               { player with
                                 playerStatus := some { pst with
                                                        status := PlayStatus.RAISE } }) },
            false) := by
  obtain ⟨cs, hcs⟩ := Option.isSome_iff_exists.mp hcards
  subst hturn
  simp only [updateGameStatus, List.get?_eq_getElem?, hg, hp, hidx, hcs,
    hget, hpst, if_neg (by simp : ¬gs.playTurn ≠ gs.playTurn), if_pos ha,
    if_pos hover, withStatus]

/-- C3 witness: the amended theorem applied to `sampleRoom` with RAISE 200. -/
theorem c3_raise_rejection_witness :
    updateGameStatus rank0 7 sampleRoom "a" PlayStatus.RAISE (some 200) =
      some ({ sampleRoom with
              players := some [mkPlayer "a" 100 0 0 PlayStatus.RAISE [0, 1],
                               mkPlayer "b" 50 0 5 PlayStatus.NONE [2, 3]] },
            false) := by
  rw [c3_raise_rejection rank0 7 sampleRoom "a" 200
    { round := 1, roundFinished := false, currentBetAmount := 10, pot := 15,
      blindTurn := 1, playTurn := 0, deck := [], cards := some initialCards,
      timestamp := 0 }
    [mkPlayer "a" 100 0 0 PlayStatus.NONE [0, 1],
     mkPlayer "b" 50 0 5 PlayStatus.NONE [2, 3]]
    0 (mkPlayer "a" 100 0 0 PlayStatus.NONE [0, 1])
    { totalBetAmout := 0, subTotalBetAmount := 0, status := PlayStatus.NONE,
      deck := some [0, 1], winAmount := 0 }
    rfl rfl (by decide) (by decide) (by decide) (by decide) rfl
    (by decide) (by decide)]
  decide

/-! ## C4 — turn validity

We characterise the turn search completely: with all seats carrying a
`playerStatus` and at least one eligible seat, `findEligible` (with fuel `n`)
returns exactly the first eligible seat along the orbit of its step map,
skipping every ineligible seat on the way. -/

theorem isEligible_true_of (ps : List Player) (t : Nat) (p : Player)
    (pst : PlayerStatus) (hget : ps.get? t = some p)
    (hpst : p.playerStatus = some pst)
    (hst : ¬(pst.status = PlayStatus.FOLD ∨ pst.status = PlayStatus.BUST ∨
      pst.status = PlayStatus.ALLIN)) : isEligible ps t = true := by
  simp only [isEligible, hget, hpst]
  push_neg at hst
  simp [hst.1, hst.2.1, hst.2.2]

theorem isEligible_false_of (ps : List Player) (t : Nat) (p : Player)
    (pst : PlayerStatus) (hget : ps.get? t = some p)
    (hpst : p.playerStatus = some pst)
    (hst : pst.status = PlayStatus.FOLD ∨ pst.status = PlayStatus.BUST ∨
      pst.status = PlayStatus.ALLIN) : isEligible ps t = false := by
  simp only [isEligible, hget, hpst]
  rcases hst with h | h | h <;> simp [h]

/-- Complete description of a successful `findEligible` run: it stops at the
first position of the orbit `start + i*c (mod n)`, `i = 1, 2, …`, that is
eligible, provided some position within the fuel is eligible. -/
theorem findEligible_spec (ps : List Player) (n c : Nat) (hn : n = ps.length)
    (hall : ∀ p ∈ ps, p.playerStatus.isSome) :
    ∀ fuel start,
      (∃ i, 1 ≤ i ∧ i ≤ fuel ∧ isEligible ps ((start + i * c) % n) = true) →
      ∃ j, 1 ≤ j ∧ j ≤ fuel ∧
        findEligible ps n c fuel start = some ((start + j * c) % n) ∧
        isEligible ps ((start + j * c) % n) = true ∧
        ∀ i, 1 ≤ i → i < j → isEligible ps ((start + i * c) % n) = false := by
  intro fuel
  induction fuel with
  | zero =>
    intro start hex
    obtain ⟨i, hi1, hi0, _⟩ := hex
    omega
  | succ fuel ih =>
    intro start hex
    have hn0 : 0 < n := by
      obtain ⟨i, _, _, helig⟩ := hex
      by_contra h0
      have hn' : n = 0 := by omega
      have hps : ps = [] := List.length_eq_zero.mp (by omega)
      rw [hps] at helig
      simp [isEligible] at helig
    set t := (start + c) % n with ht
    have htpos : t = (start + 1 * c) % n := by rw [ht]; ring_nf
    have htlt : t < n := Nat.mod_lt _ hn0
    have htlen : t < ps.length := hn ▸ htlt
    obtain ⟨p, hget⟩ : ∃ p, ps.get? t = some p := by
      simp only [List.get?_eq_getElem?]
      exact ⟨ps.get ⟨t, htlen⟩, by simp [List.getElem?_eq_getElem htlen]⟩
    have hmem : p ∈ ps := by
      have := List.get?_mem hget
      exact this
    obtain ⟨pst, hpst⟩ := Option.isSome_iff_exists.mp (hall p hmem)
    by_cases hst : pst.status = PlayStatus.FOLD ∨ pst.status = PlayStatus.BUST ∨
        pst.status = PlayStatus.ALLIN
    · -- ineligible seat: the loop skips it
      have helig_t : isEligible ps t = false := isEligible_false_of ps t p pst hget hpst hst
      have hrun : findEligible ps n c (fuel + 1) start = findEligible ps n c fuel t := by
        simp only [findEligible, ← ht, hget, hpst, if_pos hst]
      -- shift the existence witness to the recursive call
      obtain ⟨i, hi1, hile, helig⟩ := hex
      have hi2 : 2 ≤ i := by
        rcases Nat.lt_or_ge i 2 with h | h
        · interval_cases i
          · rw [← htpos] at helig
            rw [helig_t] at helig
            exact absurd helig (by simp)
        · exact h
      have hshift : ∀ k, (t + k * c) % n = (start + (k + 1) * c) % n := by
        intro k
        rw [ht, Nat.mod_add_mod]
        congr 1
        ring
      have hex' : ∃ i', 1 ≤ i' ∧ i' ≤ fuel ∧
          isEligible ps ((t + i' * c) % n) = true := by
        refine ⟨i - 1, by omega, by omega, ?_⟩
        rw [hshift]
        have : i - 1 + 1 = i := by omega
        rw [this]
        exact helig
      obtain ⟨j', hj1, hjle, hrun', helig', hskip'⟩ := ih t hex'
      refine ⟨j' + 1, by omega, by omega, ?_, ?_, ?_⟩
      · rw [hrun, hrun', hshift]
      · rw [← hshift]; exact helig'
      · intro i' hi'1 hi'lt
        rcases Nat.lt_or_ge i' 2 with h | h
        · interval_cases i'
          rw [← htpos]
          exact helig_t
        · have := hskip' (i' - 1) (by omega) (by omega)
          rw [hshift] at this
          have heq : i' - 1 + 1 = i' := by omega
          rw [heq] at this
          exact this
    · -- eligible seat: the loop stops here
      have helig_t : isEligible ps t = true := isEligible_true_of ps t p pst hget hpst hst
      refine ⟨1, le_refl 1, by omega, ?_, ?_, ?_⟩
      · simp only [findEligible, ← ht, hget, hpst, if_neg hst, ← htpos]
      · rw [← htpos]; exact helig_t
      · intro i hi1 hilt
        omega

/-- Stepping forward by 1 from any start, every residue `s < n` is reached
within `1, …, n` steps. -/
theorem mod_hit_fwd (n start s : Nat) (hn : 0 < n) (hs : s < n) :
    ∃ i, 1 ≤ i ∧ i ≤ n ∧ (start + i) % n = s := by
  have hq := Nat.div_add_mod start n
  set q := start / n with hqdef
  set r := start % n with hrdef
  have hrlt : r < n := Nat.mod_lt _ hn
  rcases Nat.lt_trichotomy r s with h | h | h
  · -- r < s : i = s - r
    refine ⟨s - r, by omega, by omega, ?_⟩
    have : start + (s - r) = n * q + s := by omega
    rw [this, Nat.mul_comm, Nat.add_comm, Nat.add_mul_mod_self_right]
    exact Nat.mod_eq_of_lt hs
  · -- r = s : i = n
    refine ⟨n, by omega, le_refl n, ?_⟩
    rw [Nat.add_mod_right]
    omega
  · -- s < r : i = n + s - r
    refine ⟨n + s - r, by omega, by omega, ?_⟩
    have : start + (n + s - r) = n * (q + 1) + s := by
      have : n * (q + 1) = n * q + n := by ring
      omega
    rw [this, Nat.mul_comm, Nat.add_comm, Nat.add_mul_mod_self_right]
    exact Nat.mod_eq_of_lt hs

/-- Stepping backward (`+ (n-1)` mod `n`) from any start, every residue
`s < n` is reached within `1, …, n` steps. -/
theorem mod_hit_bwd (n start s : Nat) (hn : 0 < n) (hs : s < n) :
    ∃ i, 1 ≤ i ∧ i ≤ n ∧ (start + i * (n - 1)) % n = s := by
  obtain ⟨i, hi1, hin, hhit⟩ :=
    mod_hit_fwd n s (start % n) hn (Nat.mod_lt _ hn)
  refine ⟨i, hi1, hin, ?_⟩
  have hsplit : i * (n - 1) + i = i * n := by
    cases n with
    | zero => omega
    | succ m => simp [Nat.mul_succ, Nat.succ_sub_one]
  have hA : (start + i * (n - 1) + i) % n = (s + i) % n := by
    have : start + i * (n - 1) + i = start + i * n := by omega
    rw [this, Nat.add_mul_mod_self_right, hhit]
  have hmodeq : Nat.ModEq n (start + i * (n - 1) + i) (s + i) := hA
  have := Nat.ModEq.add_right_cancel' i hmodeq
  calc (start + i * (n - 1)) % n = s % n := this
    _ = s := Nat.mod_eq_of_lt hs

/-- From "at least two eligible seats", produce an eligible position on the
orbit of the step map, within `n` steps. -/
theorem exists_orbit_eligible (ps : List Player) (start : Nat)
    (hitPos : Nat → Nat → Nat)
    (h2 : 2 ≤ (List.range ps.length).countP (fun t => isEligible ps t))
    (hitter : ∀ s, 0 < ps.length → s < ps.length →
      ∃ i, 1 ≤ i ∧ i ≤ ps.length ∧ hitPos start i = s) :
    ∃ i, 1 ≤ i ∧ i ≤ ps.length ∧ isEligible ps (hitPos start i) = true := by
  have hpos : 0 < (List.range ps.length).countP (fun t => isEligible ps t) := by omega
  rw [List.countP_pos_iff] at hpos
  obtain ⟨s, hsmem, hs⟩ := hpos
  rw [List.mem_range] at hsmem
  have hlen : 0 < ps.length := by omega
  obtain ⟨i, hi1, hin, hhit⟩ := hitter s hlen hsmem
  exact ⟨i, hi1, hin, by rw [hhit]; exact hs⟩

/-- C4: whenever every seat has a `playerStatus` and at least two seats have
status outside {FOLD, BUST, ALLIN}, `nextTurn` returns a seat whose status is
outside {FOLD, BUST, ALLIN}, obtained by stepping +1 modulo the seat count
from the start seat and skipping every ineligible seat; symmetrically,
`prevTurn` steps −1 modulo the seat count. -/
theorem c4_turn_validity (room : Room) (gs : GameStatus) (ps : List Player)
    (turn? : Option Nat)
    (hg : room.gameStatus = some gs) (hp : room.players = some ps)
    (hn : room.numberOfPlayers = ps.length)
    (hall : ∀ p ∈ ps, p.playerStatus.isSome)
    (h2 : 2 ≤ (List.range ps.length).countP (fun t => isEligible ps t)) :
    (∃ t', nextTurn room turn? = some t' ∧ isEligible ps t' = true ∧
      ∃ j, 1 ≤ j ∧ j ≤ ps.length ∧
        t' = (turnStart gs.playTurn turn? + j) % ps.length ∧
        ∀ i, 1 ≤ i → i < j →
          isEligible ps ((turnStart gs.playTurn turn? + i) % ps.length) = false) ∧
    (∃ t', prevTurn room turn? = some t' ∧ isEligible ps t' = true ∧
      ∃ j, 1 ≤ j ∧ j ≤ ps.length ∧
        t' = (turnStart gs.playTurn turn? + j * (ps.length - 1)) % ps.length ∧
        ∀ i, 1 ≤ i → i < j →
          isEligible ps ((turnStart gs.playTurn turn? + i * (ps.length - 1)) %
            ps.length) = false) := by
  set start := turnStart gs.playTurn turn? with hstart
  constructor
  · have hex := exists_orbit_eligible ps start
      (fun st i => (st + i) % ps.length) h2
      (fun s hlen hslt => mod_hit_fwd ps.length start s hlen hslt)
    have hex' : ∃ i, 1 ≤ i ∧ i ≤ ps.length ∧
        isEligible ps ((start + i * 1) % ps.length) = true := by
      obtain ⟨i, hi1, hin, h⟩ := hex
      exact ⟨i, hi1, hin, by simpa using h⟩
    obtain ⟨j, hj1, hjn, hrun, helig, hskip⟩ :=
      findEligible_spec ps ps.length 1 rfl hall ps.length start hex'
    refine ⟨(start + j * 1) % ps.length, ?_, helig, j, hj1, hjn, by ring_nf, ?_⟩
    · simp only [nextTurn, hg, hp, hn, ← hstart]
      exact hrun
    · intro i hi1 hilt
      have := hskip i hi1 hilt
      simpa using this
  · have hex := exists_orbit_eligible ps start
      (fun st i => (st + i * (ps.length - 1)) % ps.length) h2
      (fun s hlen hslt => mod_hit_bwd ps.length start s hlen hslt)
    obtain ⟨j, hj1, hjn, hrun, helig, hskip⟩ :=
      findEligible_spec ps ps.length (ps.length - 1) rfl hall ps.length start hex
    refine ⟨(start + j * (ps.length - 1)) % ps.length, ?_, helig, j, hj1, hjn,
      rfl, hskip⟩
    simp only [prevTurn, hg, hp, hn, ← hstart]
    exact hrun

/-- Seats of a three-player room with seat 1 folded. -/
def turnPlayers : List Player :=
  [mkPlayer "a" 100 0 0 PlayStatus.NONE [0, 1],
   mkPlayer "b" 100 0 0 PlayStatus.FOLD [2, 3],
   mkPlayer "c" 100 0 0 PlayStatus.NONE [4, 5]]

/-- The three-player room used to witness the turn-validity theorem. -/
def turnRoom : Room :=
  { id := "r", name := "r", creator := mkPlayer "a" 100 0 0 PlayStatus.NONE [0, 1],
    started := true, numberOfPlayers := 3, players := some turnPlayers,
    gameStatus := some { round := 1, roundFinished := false,
                         currentBetAmount := 0, pot := 0, blindTurn := 1,
                         playTurn := 0, deck := [], cards := some initialCards,
                         timestamp := 0 } }

/-- C4 witness: the turn-validity theorem applied to `turnRoom` (where the
search must skip the folded seat 1). -/
theorem c4_turn_validity_witness :
    (∀ p ∈ turnPlayers, p.playerStatus.isSome) ∧
    2 ≤ (List.range turnPlayers.length).countP (fun t => isEligible turnPlayers t) ∧
    ((∃ t', nextTurn turnRoom none = some t' ∧ isEligible turnPlayers t' = true ∧
      ∃ j, 1 ≤ j ∧ j ≤ turnPlayers.length ∧
        t' = (turnStart 0 none + j) % turnPlayers.length ∧
        ∀ i, 1 ≤ i → i < j →
          isEligible turnPlayers ((turnStart 0 none + i) % turnPlayers.length) =
            false) ∧
     (∃ t', prevTurn turnRoom none = some t' ∧ isEligible turnPlayers t' = true ∧
      ∃ j, 1 ≤ j ∧ j ≤ turnPlayers.length ∧
        t' = (turnStart 0 none + j * (turnPlayers.length - 1)) %
          turnPlayers.length ∧
        ∀ i, 1 ≤ i → i < j →
          isEligible turnPlayers
            ((turnStart 0 none + i * (turnPlayers.length - 1)) %
              turnPlayers.length) = false)) := by
  refine ⟨by decide, by decide, ?_⟩
  exact c4_turn_validity turnRoom
    { round := 1, roundFinished := false, currentBetAmount := 0, pot := 0,
      blindTurn := 1, playTurn := 0, deck := [], cards := some initialCards,
      timestamp := 0 }
    turnPlayers none rfl rfl rfl (by decide) (by decide)

/-! ## C1 — chip conservation

Every chip movement in the engine transfers between a balance and the pot:
betting moves chips balance → pot (and additionally *records* them in
`subTotalBetAmount`/`totalBetAmout`, which therefore double-count what is
already in the pot), and settlement moves chips pot → balance.  Hence
`Σ balance + pot` is invariant under `updateGameStatus` (settlement included),
while the specification's quantity
`Σ(balance + totalBetAmout + subTotalBetAmount) + pot` grows by the bet
amount on every chip-moving action. -/

theorem balSum_set (ps : List Player) (i : Nat) (p q : Player)
    (hget : ps[i]? = some p) :
    balSum (ps.set i q) = balSum ps - p.balance + q.balance := by
  induction ps generalizing i with
  | nil => simp at hget
  | cons a tl ih =>
    cases i with
    | zero =>
      simp only [List.getElem?_cons_zero, Option.some.injEq] at hget
      subst hget
      simp [balSum]
      ring
    | succ i =>
      simp only [List.getElem?_cons_succ] at hget
      have := ih i hget
      simp only [List.set_cons_succ, balSum, List.map_cons, List.sum_cons] at this ⊢
      omega

theorem balSum_map_of_balance_eq (f : Player → Player)
    (hf : ∀ p, (f p).balance = p.balance) (ps : List Player) :
    balSum (ps.map f) = balSum ps := by
  induction ps with
  | nil => rfl
  | cons a tl ih => simp [balSum, hf] at ih ⊢; omega

theorem creditWinner_conserve (subSeats : List Nat) (wl seat rv : Nat)
    (ps : List Player) (pot : Int) :
    balSum (creditWinner subSeats wl seat rv ps pot).1 +
      (creditWinner subSeats wl seat rv ps pot).2 = balSum ps + pot := by
  cases hget : ps[seat]? with
  | none => simp [creditWinner, List.get?_eq_getElem?, hget]
  | some p =>
    cases hpst : p.playerStatus with
    | none => simp [creditWinner, List.get?_eq_getElem?, hget, hpst]
    | some pst =>
      simp only [creditWinner, List.get?_eq_getElem?, hget, hpst]
      rw [balSum_set ps seat p _ hget]
      ring

theorem creditTier_conserve (subSeats : List Nat) (winners : List (Nat × Nat)) :
    ∀ ps pot, balSum (creditTier subSeats winners ps pot).1 +
      (creditTier subSeats winners ps pot).2 = balSum ps + pot := by
  induction winners with
  | nil => intro ps pot; rfl
  | cons w rest ih =>
    intro ps pot
    unfold creditTier
    rw [ih]
    exact creditWinner_conserve _ _ _ _ _ _

theorem settleLoop_conserve (fuel : Nat) :
    ∀ subHands ps pot, balSum (settleLoop fuel subHands ps pot).1 +
      (settleLoop fuel subHands ps pot).2 = balSum ps + pot := by
  induction fuel with
  | zero => intro subHands ps pot; rfl
  | succ fuel ih =>
    intro subHands ps pot
    unfold settleLoop
    by_cases h0 : pot = 0
    · simp [h0]
    · rw [if_neg h0]
      by_cases he : subHands.isEmpty = true
      · simp [he]
      · rw [if_neg he]
        rw [ih]
        exact creditTier_conserve _ _ _ _

theorem checkWinning_conserve (rank : List Nat → Nat) (room r' : Room)
    (h : checkWinning rank room = some r') : chipSum r' = chipSum room := by
  unfold checkWinning at h
  split at h
  next hg =>
    simp only [Option.some.injEq] at h
    subst h; rfl
  next gs hg =>
    split at h
    next hp => simp at h
    next ps hp =>
      split at h
      next hm => simp at h
      next hands hm =>
        simp only [Option.some.injEq] at h
        subst h
        simp only [chipSum, hp, hg]
        exact settleLoop_conserve _ _ _ _

theorem dealCards_conserve (rank : List Nat → Nat) (room r' : Room) (f : Bool)
    (h : dealCards rank room = some (r', f)) : chipSum r' = chipSum room := by
  unfold dealCards at h
  split at h
  next hg =>
    simp only [Option.some.injEq, Prod.mk.injEq] at h
    rw [← h.1]
  next gs hg =>
    split at h
    next hc =>
      simp only [Option.some.injEq, Prod.mk.injEq] at h
      rw [← h.1]
    next cs hc =>
      split at h
      next hp => simp at h
      next ps hp =>
        have hbs : balSum (ps.map foldSubTotal) = balSum ps :=
          balSum_map_of_balance_eq foldSubTotal
            (fun p => by unfold foldSubTotal; cases p.playerStatus <;> rfl) ps
        -- the `currentBetAmount` reset is skipped on an empty seat list
        split at h
        all_goals
          dsimp only at h
          split at h
          next hnt => simp at h
          next nt hnt =>
            split at h
            · -- board already complete: settle via checkWinning
              split at h
              next hcw => simp at h
              next room₃ hcw =>
                simp only [Option.some.injEq, Prod.mk.injEq] at h
                rw [← h.1]
                rw [checkWinning_conserve rank _ _ hcw]
                simp only [chipSum, hg, hp, hbs]
            · -- reveal flop / one card
              simp only [Option.some.injEq, Prod.mk.injEq] at h
              rw [← h.1]
              simp only [chipSum, hg, hp, hbs]

theorem runStreets_conserve (rank : List Nat → Nat) (fuel : Nat) :
    ∀ room r', runStreets rank fuel room = some r' → chipSum r' = chipSum room := by
  induction fuel with
  | zero => intro room r' h; simp [runStreets] at h
  | succ fuel ih =>
    intro room r' h
    unfold runStreets at h
    cases hd : dealCards rank room with
    | none => rw [hd] at h; simp at h
    | some rb =>
      rw [hd] at h
      simp only at h
      by_cases hf : rb.2 = true
      · rw [if_pos hf] at h
        simp only [Option.some.injEq] at h
        subst h
        exact dealCards_conserve rank room _ _ (by rw [hd])
      · rw [if_neg hf] at h
        rw [ih rb.1 r' h]
        exact dealCards_conserve rank room _ _ (by rw [hd])

theorem maybeDeal_conserve (rank : List Nat → Nat) (room : Room) (rb : Room × Bool)
    (h : maybeDeal rank room = some rb) : chipSum rb.1 = chipSum room := by
  unfold maybeDeal at h
  split at h
  next hg =>
    simp only [Option.some.injEq] at h
    rw [← h]
  next gs hg =>
    split at h
    next hp => simp at h
    next ps hp =>
      split at h
      next hget => simp at h
      next np hget =>
        split at h
        next hnpst =>
          dsimp only at h
          simp only [Bool.false_eq_true, if_false, Option.some.injEq] at h
          rw [← h]
        next npst hnpst =>
          dsimp only at h
          split at h
          · obtain ⟨r₁, f₁⟩ := rb
            exact dealCards_conserve rank room _ _ h
          · simp only [Option.some.injEq] at h
            rw [← h]

theorem chipSum_setTimestamp (now : Nat) (room : Room) :
    chipSum (setTimestamp now room) = chipSum room := by
  unfold setTimestamp
  cases hg : room.gameStatus <;> simp [chipSum, hg]

theorem chipSum_withStatus (room : Room) (pi : Nat) (s : PlayStatus) :
    chipSum (withStatus room pi s) = chipSum room := by
  unfold withStatus
  cases hp : room.players with
  | none => rfl
  | some ps =>
    cases hget : ps[pi]? with
    | none => simp [List.get?_eq_getElem?, hp, hget]
    | some p =>
      cases hpst : p.playerStatus with
      | none => simp [List.get?_eq_getElem?, hp, hget, hpst]
      | some pst =>
        simp only [chipSum, List.get?_eq_getElem?, hp, hget, hpst]
        rw [balSum_set ps pi p _ hget]
        simp

theorem chipSum_setPlayTurn (r : Room) (gs₁ : GameStatus) (x : Nat)
    (h : r.gameStatus = some gs₁) :
    chipSum { r with gameStatus := some { gs₁ with playTurn := x } } = chipSum r := by
  simp [chipSum, h]

/-- C1 (amended): every accepted action and every settlement conserves
`Σ balance + pot`: whenever `updateGameStatus` returns a room (any action,
including the paths that settle streets or run `checkWinning`), the sum of
all seat balances plus the pot is unchanged.  The specification's richer sum
`Σ(balance + totalBetAmout + subTotalBetAmount) + pot` is not conserved,
because each bet is added both to the pot and to the bet bookkeeping fields;
and at settlement the balances need not increase by the whole pre-settlement
pot — the winners' caps can strand a residual pot, which then stays nonzero
(see the counterexample for both failures). -/
theorem c1_conservation (rank : List Nat → Nat) (now : Nat) (room : Room)
    (pid : String) (status : PlayStatus) (amount : Option Int) (r' : Room)
    (e : Bool)
    (h : updateGameStatus rank now room pid status amount = some (r', e)) :
    chipSum r' = chipSum room := by
  unfold updateGameStatus at h
  split at h
  next hg =>
    simp only [Option.some.injEq, Prod.mk.injEq] at h
    rw [← h.1]
  next gs hg =>
  split at h
  next hp => simp at h
  next ps hp =>
  split at h
  next hidx =>
    simp only [Option.some.injEq, Prod.mk.injEq] at h
    rw [← h.1]
  next pi hidx =>
  split at h
  · simp only [Option.some.injEq, Prod.mk.injEq] at h
    rw [← h.1]
  split at h
  next hcs =>
    simp only [Option.some.injEq, Prod.mk.injEq] at h
    rw [← h.1]
  next cs hcs =>
  split at h
  next hget => simp at h
  next player hget =>
  split at h
  next hpst =>
    simp only [Option.some.injEq, Prod.mk.injEq] at h
    rw [← h.1]
  next pst hpst =>
  rw [List.get?_eq_getElem?] at hget
  dsimp only at h
  split at h
  · -- CALL
    split at h
    next hnt => simp at h
    next nt hnt =>
    split at h
    next hmd => simp at h
    next rb hmd =>
    simp only [Option.some.injEq, Prod.mk.injEq] at h
    rw [← h.1, chipSum_setTimestamp, maybeDeal_conserve rank _ rb hmd]
    simp only [chipSum, hg, hp]
    rw [balSum_set ps pi player _ hget]
    ring
  · -- RAISE
    split at h
    next a =>
      split at h
      · -- amount ≠ 0
        split at h
        · -- required amount exceeds balance: rejected with the status mutated
          simp only [Option.some.injEq, Prod.mk.injEq] at h
          rw [← h.1, chipSum_withStatus]
        · split at h
          next hnt => simp at h
          next nt hnt =>
          simp only [Option.some.injEq, Prod.mk.injEq] at h
          rw [← h.1, chipSum_setTimestamp]
          simp only [chipSum, hg, hp]
          rw [balSum_set ps pi player _ hget]
          ring
      · -- amount = 0 is falsy: no branch runs
        simp only [Option.some.injEq, Prod.mk.injEq] at h
        rw [← h.1, chipSum_setTimestamp, chipSum_withStatus]
    next =>
      simp only [Option.some.injEq, Prod.mk.injEq] at h
      rw [← h.1, chipSum_setTimestamp, chipSum_withStatus]
  · -- CHECK
    split at h
    next a b hnta hntb =>
      split at h
      · -- ring closed: settle the street
        split at h
        next hdc => simp at h
        next rb hdc =>
        obtain ⟨r₁, f₁⟩ := rb
        simp only [Option.some.injEq, Prod.mk.injEq] at h
        rw [← h.1, chipSum_setTimestamp,
          dealCards_conserve rank _ r₁ f₁ hdc, chipSum_withStatus]
      · -- advance the turn only
        split at h
        next hgs₁ => simp at h
        next gs₁ hgs₁ =>
        simp only [Option.some.injEq, Prod.mk.injEq] at h
        rw [← h.1, chipSum_setTimestamp, chipSum_setPlayTurn _ gs₁ a hgs₁,
          chipSum_withStatus]
    next hcatch => simp at h
  · -- FOLD
    split at h
    next hnt => simp at h
    next nt hnt =>
    split at h
    next hgs₁ => simp at h
    next gs₁ hgs₁ =>
    split at h
    next hmd => simp at h
    next rb hmd =>
    split at h
    next hps₃ => simp at h
    next ps₃ hps₃ =>
    split at h
    · -- one active seat left: force-run the remaining streets
      split at h
      next hrs => simp at h
      next room₄ hrs =>
      simp only [Option.some.injEq, Prod.mk.injEq] at h
      rw [← h.1, chipSum_setTimestamp, runStreets_conserve rank 5 _ _ hrs,
        maybeDeal_conserve rank _ rb hmd, chipSum_setPlayTurn _ gs₁ nt hgs₁,
        chipSum_withStatus]
    · simp only [Option.some.injEq, Prod.mk.injEq] at h
      rw [← h.1, chipSum_setTimestamp, maybeDeal_conserve rank _ rb hmd,
        chipSum_setPlayTurn _ gs₁ nt hgs₁, chipSum_withStatus]
  · -- ALLIN
    split at h
    next hnt => simp at h
    next nt hnt =>
    simp only [Option.some.injEq, Prod.mk.injEq] at h
    rw [← h.1, chipSum_setTimestamp]
    simp only [chipSum, hg, hp]
    rw [balSum_set ps pi player _ hget]
    ring
  · -- any other submitted status: only the status field and timestamp change
    simp only [Option.some.injEq, Prod.mk.injEq] at h
    rw [← h.1, chipSum_setTimestamp, chipSum_withStatus]

/-- C1 witness: conservation of `Σ balance + pot` for a concrete accepted
CALL in `sampleRoom`. -/
theorem c1_conservation_witness :
    ∃ r' e, updateGameStatus rank0 7 sampleRoom "a" PlayStatus.CALL none =
        some (r', e) ∧ chipSum r' = chipSum sampleRoom := by
  obtain ⟨⟨r', e⟩, hr⟩ :
      ∃ rb, updateGameStatus rank0 7 sampleRoom "a" PlayStatus.CALL none =
        some rb := ⟨_, rfl⟩
  exact ⟨r', e, hr,
    c1_conservation rank0 7 sampleRoom "a" PlayStatus.CALL none r' e hr⟩

/-- The pot of a room (0 when no round is active). -/
def potOf (room : Room) : Int :=
  match room.gameStatus with
  | some gs => gs.pot
  | none => 0

/-- The sum of the seat balances of a room (0 when the seat list is absent). -/
def balOf (room : Room) : Int :=
  match room.players with
  | some ps => balSum ps
  | none => 0

/-- A settlement state with a lone live seat: seat 3 (`totalBetAmout` 40) is
the only non-folded seat, against folded totals 20, 80 and 50 and a pot of
190. -/
def strandPlayers : List Player :=
  [mkPlayer "p0" 1000 20 0 PlayStatus.FOLD [0, 1],
   mkPlayer "p1" 1000 80 0 PlayStatus.FOLD [2, 3],
   mkPlayer "p2" 1000 50 0 PlayStatus.FOLD [4, 5],
   mkPlayer "p3" 1000 40 0 PlayStatus.CALL [6, 7]]

/-- The room holding the lone-live-seat settlement state. -/
def strandRoom : Room :=
  { id := "s", name := "s",
    creator := mkPlayer "p0" 1000 20 0 PlayStatus.FOLD [0, 1],
    started := true, numberOfPlayers := 4,
    players := some strandPlayers,
    gameStatus := some { round := 1, roundFinished := false,
                         currentBetAmount := 30, pot := 190, blindTurn := 0,
                         playTurn := 3, deck := [47, 48, 49, 50, 51],
                         cards := none, timestamp := 0 } }

/-- C1 counterexample, refuting both halves of the claim.  (a) The claimed
quantity `Σ(balance + totalBetAmout + subTotalBetAmount) + pot` is not
conserved: the accepted 10-chip CALL in `sampleRoom` moves it from 170 to
180, because the 10 chips are added both to the pot and to the caller's
`subTotalBetAmount` while the balance drops by only 10.  (b) At settlement
the balances do not increase by the pre-settlement pot and the pot does not
become 0: `checkWinning` on `strandRoom` (pot 190, lone live seat capped at
140 = 40 own + 20 + 40 + 40 from the folded seats) credits only 140, leaving
a residual pot of 50. -/
theorem c1_counterexample :
    ((updateGameStatus rank0 7 sampleRoom "a" PlayStatus.CALL none).map
        (fun rb => specChipSum rb.1) = some 180 ∧
      specChipSum sampleRoom = 170 ∧ (180 : Int) ≠ 170) ∧
    ((checkWinning rank0 strandRoom).map (fun r' => (potOf r', balOf r')) =
        some (50, 4140) ∧
      potOf strandRoom = 190 ∧ balOf strandRoom = 4000 ∧
      (50 : Int) ≠ 0 ∧ (4140 : Int) ≠ 4000 + 190) := by
  exact ⟨⟨by decide, by decide, by decide⟩,
    ⟨by decide, by decide, by decide, by decide, by decide⟩⟩

/-! ## C7 — CHECK legality and street closure

The source's CHECK branch (lines 451–456) performs no legality check at all:
the action is accepted whatever the seat's `subTotalBetAmount`.  The
street-closure condition compares `nextTurn(room)` with
`nextTurn(room, blindTurn)`; when `blindTurn = 0` the second call falls back
to `playTurn` (zero is falsy), making the two sides identical, so CHECK then
always settles the street. -/

/-- All seats that carry a `playerStatus` have an empty street bet. -/
def subTotalsZero (ps : List Player) : Prop :=
  ∀ p ∈ ps, ∀ pst : PlayerStatus, p.playerStatus = some pst →
    pst.subTotalBetAmount = 0

theorem subTotalsZero_creditWinner (subSeats : List Nat) (wl seat rv : Nat)
    (ps : List Player) (pot : Int) (hz : subTotalsZero ps) :
    subTotalsZero (creditWinner subSeats wl seat rv ps pot).1 := by
  cases hget : ps[seat]? with
  | none => simpa [creditWinner, List.get?_eq_getElem?, hget] using hz
  | some p =>
    cases hpst : p.playerStatus with
    | none => simpa [creditWinner, List.get?_eq_getElem?, hget, hpst] using hz
    | some pst =>
      simp only [creditWinner, List.get?_eq_getElem?, hget, hpst]
      intro q hq pst' hpst'
      rcases List.mem_or_eq_of_mem_set hq with hmem | hqe
      · exact hz q hmem pst' hpst'
      · subst hqe
        simp only [Option.some.injEq] at hpst'
        have hp0 := hz p (List.getElem?_mem hget) pst hpst
        rw [← hpst']
        simpa using hp0

theorem subTotalsZero_creditTier (subSeats : List Nat)
    (winners : List (Nat × Nat)) :
    ∀ ps pot, subTotalsZero ps →
      subTotalsZero (creditTier subSeats winners ps pot).1 := by
  induction winners with
  | nil => intro ps pot hz; exact hz
  | cons w rest ih =>
    intro ps pot hz
    exact ih _ _ (subTotalsZero_creditWinner _ _ _ _ _ _ hz)

theorem subTotalsZero_settleLoop (fuel : Nat) :
    ∀ subHands ps pot, subTotalsZero ps →
      subTotalsZero (settleLoop fuel subHands ps pot).1 := by
  induction fuel with
  | zero => intro subHands ps pot hz; exact hz
  | succ fuel ih =>
    intro subHands ps pot hz
    unfold settleLoop
    by_cases h0 : pot = 0
    · simpa [h0] using hz
    · rw [if_neg h0]
      by_cases he : subHands.isEmpty = true
      · simpa [he] using hz
      · rw [if_neg he]
        exact ih _ _ _ (subTotalsZero_creditTier _ _ _ _ hz)

theorem subTotalsZero_foldSubTotal (ps : List Player) :
    subTotalsZero (ps.map foldSubTotal) := by
  intro q hq pst' hpst'
  rw [List.mem_map] at hq
  obtain ⟨p, _, hpq⟩ := hq
  subst hpq
  unfold foldSubTotal at hpst'
  cases hps : p.playerStatus with
  | none => rw [hps] at hpst'; simp at hpst'; rw [hps] at hpst'; cases hpst'
  | some pst =>
    rw [hps] at hpst'
    simp only [Option.some.injEq] at hpst'
    rw [← hpst']

/-- `dealCards` always ends the street: every seat's `subTotalBetAmount` is
folded away and (when the seat list is non-empty) `currentBetAmount` is
reset to 0.  This holds on both outcomes (card revealed, or showdown via
`checkWinning`). -/
theorem dealCards_street_reset (rank : List Nat → Nat) (room r₁ : Room)
    (f₁ : Bool) (gs : GameStatus) (ps : List Player)
    (hg : room.gameStatus = some gs) (hc : gs.cards.isSome)
    (hp : room.players = some ps) (hne : ps ≠ [])
    (h : dealCards rank room = some (r₁, f₁)) :
    (∃ gs', r₁.gameStatus = some gs' ∧ gs'.currentBetAmount = 0) ∧
    (∃ ps', r₁.players = some ps' ∧ subTotalsZero ps') := by
  obtain ⟨cs, hcs⟩ := Option.isSome_iff_exists.mp hc
  have hemp : ps.isEmpty = false := by
    cases ps with
    | nil => exact absurd rfl hne
    | cons a tl => rfl
  unfold dealCards at h
  rw [hg] at h
  dsimp only at h
  rw [hcs] at h
  dsimp only at h
  rw [hp] at h
  dsimp only at h
  rw [hemp] at h
  simp only [Bool.false_eq_true, if_false] at h
  split at h
  next hnt => simp at h
  next nt hnt =>
  split at h
  · -- showdown: checkWinning keeps the reset fields
    split at h
    next hcw => simp at h
    next room₃ hcw =>
    simp only [Option.some.injEq, Prod.mk.injEq] at h
    obtain ⟨h1, _⟩ := h
    subst h1
    unfold checkWinning at hcw
    dsimp only at hcw
    split at hcw
    next hm => simp at hcw
    next hands hm =>
    simp only [Option.some.injEq] at hcw
    subst hcw
    refine ⟨⟨_, rfl, rfl⟩, ⟨_, rfl, ?_⟩⟩
    exact subTotalsZero_settleLoop _ _ _ _ (subTotalsZero_foldSubTotal ps)
  · -- reveal a card
    simp only [Option.some.injEq, Prod.mk.injEq] at h
    obtain ⟨h1, _⟩ := h
    subst h1
    exact ⟨⟨_, rfl, rfl⟩, ⟨_, rfl, subTotalsZero_foldSubTotal ps⟩⟩

theorem withStatus_gameStatus (room : Room) (pi : Nat) (s : PlayStatus) :
    (withStatus room pi s).gameStatus = room.gameStatus := by
  unfold withStatus
  cases hp : room.players with
  | none => rfl
  | some ps =>
    cases hget : ps[pi]? with
    | none => simp [List.get?_eq_getElem?, hget]
    | some p =>
      cases hpst : p.playerStatus with
      | none => simp [List.get?_eq_getElem?, hget, hpst]
      | some pst => simp [List.get?_eq_getElem?, hget, hpst]

/-- C7 (amended): an in-turn CHECK is accepted with no legality check — note
the absence of any hypothesis on `pst.subTotalBetAmount` (the claim's "legal
only when the seat has no chips owed" does not hold; see the
counterexample).  Writing `a` for the next eligible seat after `playTurn`
and `b` for the result of `nextTurn(room, blindTurn)` (which is the seat
following `blindTurn` when `blindTurn ≠ 0`, but falls back to `playTurn` —
so `a = b` — when `blindTurn = 0`): if `a ≠ b` the accepted CHECK only
advances `playTurn` (no chip movement, everything else unchanged up to the
timestamp); if `a = b` it settles the street through `dealCards`, after
which every seat's `subTotalBetAmount` is 0 and `currentBetAmount` is 0. -/
theorem c7_check_street (rank : List Nat → Nat) (now : Nat) (room : Room)
    (pid : String) (amt : Option Int) (gs : GameStatus) (ps : List Player)
    (pi : Nat) (player : Player) (pst : PlayerStatus) (a b : Nat)
    (hg : room.gameStatus = some gs) (hp : room.players = some ps)
    (hidx : ps.findIdx? (fun p => p.id == pid) = some pi)
    (hturn : pi = gs.playTurn) (hcards : gs.cards.isSome)
    (hget : ps[pi]? = some player) (hpst : player.playerStatus = some pst)
    (hnta : nextTurn (withStatus room pi PlayStatus.CHECK) none = some a)
    (hntb : nextTurn (withStatus room pi PlayStatus.CHECK) (some gs.blindTurn) =
      some b)
    (hne : ps ≠ []) :
    (gs.blindTurn = 0 → a = b) ∧
    (a ≠ b →
      updateGameStatus rank now room pid PlayStatus.CHECK amt =
        some (setTimestamp now { withStatus room pi PlayStatus.CHECK with
          gameStatus := some { gs with playTurn := a } }, true)) ∧
    (a = b → ∀ r₁ f₁,
      dealCards rank (withStatus room pi PlayStatus.CHECK) = some (r₁, f₁) →
      updateGameStatus rank now room pid PlayStatus.CHECK amt =
        some (setTimestamp now r₁, !f₁) ∧
      (∃ gs', r₁.gameStatus = some gs' ∧ gs'.currentBetAmount = 0) ∧
      (∃ ps', r₁.players = some ps' ∧ subTotalsZero ps')) := by
  subst hturn
  obtain ⟨cs, hcs⟩ := Option.isSome_iff_exists.mp hcards
  have hged : (withStatus room gs.playTurn PlayStatus.CHECK).gameStatus = some gs :=
    (withStatus_gameStatus room gs.playTurn PlayStatus.CHECK).trans hg
  refine ⟨?_, ?_, ?_⟩
  · intro h0
    rw [h0] at hntb
    have hsame : nextTurn (withStatus room gs.playTurn PlayStatus.CHECK) none =
        nextTurn (withStatus room gs.playTurn PlayStatus.CHECK) (some 0) := rfl
    exact Option.some.inj ((hnta.symm.trans hsame).trans hntb)
  · intro hab
    simp only [updateGameStatus, List.get?_eq_getElem?, hg, hp, hidx, hcs, hget,
      hpst, if_neg (by simp : ¬gs.playTurn ≠ gs.playTurn), hnta, hntb,
      if_neg hab, hged]
    simp [hcs]
  · intro hab r₁ f₁ hdc
    refine ⟨?_, ?_⟩
    · simp only [updateGameStatus, List.get?_eq_getElem?, hg, hp, hidx, hcs,
        hget, hpst, if_neg (by simp : ¬gs.playTurn ≠ gs.playTurn), hnta, hntb,
        if_pos hab, hdc]
    · have hwp : (withStatus room gs.playTurn PlayStatus.CHECK).players =
          some (ps.set gs.playTurn
            { player with
              playerStatus := some { pst with status := PlayStatus.CHECK } }) := by
        simp only [withStatus, List.get?_eq_getElem?, hp, hget, hpst]
      have hne' : ps.set gs.playTurn
          { player with
            playerStatus := some { pst with status := PlayStatus.CHECK } } ≠ [] := by
        intro hcon
        have := congrArg List.length hcon
        simp only [List.length_set, List.length_nil] at this
        exact hne (List.length_eq_zero.mp this)
      have := dealCards_street_reset rank
        (withStatus room gs.playTurn PlayStatus.CHECK) r₁ f₁ gs _ hged
        (by rw [hcs]; rfl) hwp hne' hdc
      exact this

/-- A three-seat room with `blindTurn = 0`: seat 1 ("b") to act, owing 10
chips this street. -/
def checkRoom : Room :=
  { id := "r", name := "r", creator := mkPlayer "a" 100 0 10 PlayStatus.NONE [0, 1],
    started := true, numberOfPlayers := 3,
    players := some [mkPlayer "a" 100 0 10 PlayStatus.NONE [0, 1],
                     mkPlayer "b" 100 0 0 PlayStatus.NONE [2, 3],
                     mkPlayer "c" 100 0 10 PlayStatus.NONE [4, 5]],
    gameStatus := some { round := 1, roundFinished := false,
                         currentBetAmount := 10, pot := 20, blindTurn := 0,
                         playTurn := 1, deck := [], cards := some initialCards,
                         timestamp := 0 } }

/-- C7 counterexample: in `checkRoom` the acting seat owes 10 chips
(`subTotalBetAmount 0 ≠ currentBetAmount 10`), so per the claim CHECK is
illegal; and the next eligible seat (2) differs from the seat following
`blindTurn` (seat 1, the first eligible seat after seat 0), so per the claim
an accepted CHECK must not settle the street.  Yet the engine accepts the
CHECK and settles the street (the flop is dealt and `currentBetAmount` is
reset), because `blindTurn = 0` is falsy and both `nextTurn` calls fall back
to `playTurn`. -/
theorem c7_counterexample :
    checkRoom.gameStatus.map
      (fun gs => (gs.playTurn, gs.blindTurn, gs.currentBetAmount)) =
      some (1, 0, 10) ∧
    ((checkRoom.players.getD [])[1]?.bind (fun p => p.playerStatus)).map
      (fun pst => pst.subTotalBetAmount) = some 0 ∧
    (0 : Int) ≠ 10 ∧
    nextTurn (withStatus checkRoom 1 PlayStatus.CHECK) none = some 2 ∧
    findEligible (checkRoom.players.getD []) 3 1 3 0 = some 1 ∧
    (2 : Nat) ≠ 1 ∧
    (updateGameStatus rank0 7 checkRoom "b" PlayStatus.CHECK none).map
      (fun rb => (rb.2, rb.1.gameStatus.map
        (fun gs' => (gs'.deck.length, gs'.currentBetAmount)))) =
      some (true, some (3, 0)) := by
  exact ⟨by decide, by decide, by decide, by decide, by decide, by decide,
    by decide⟩

/-- A three-seat room with `blindTurn = 1`: seat 2 ("c") to act and no
outstanding bet. -/
def checkRoom2 : Room :=
  { id := "r", name := "r", creator := mkPlayer "a" 100 0 0 PlayStatus.NONE [0, 1],
    started := true, numberOfPlayers := 3,
    players := some [mkPlayer "a" 100 0 0 PlayStatus.NONE [0, 1],
                     mkPlayer "b" 100 0 0 PlayStatus.NONE [2, 3],
                     mkPlayer "c" 100 0 0 PlayStatus.NONE [4, 5]],
    gameStatus := some { round := 1, roundFinished := false,
                         currentBetAmount := 0, pot := 0, blindTurn := 1,
                         playTurn := 2, deck := [], cards := some initialCards,
                         timestamp := 0 } }

/-- C7 witness: the amended theorem applied to `checkRoom2`, where the next
eligible seat (0) differs from the seat following the blind (2). -/
theorem c7_check_street_witness :
    (1 : Nat) ≠ 0 ∧
    ((0 : Nat) ≠ 2 →
      updateGameStatus rank0 7 checkRoom2 "c" PlayStatus.CHECK none =
        some (setTimestamp 7
                { withStatus checkRoom2 2 PlayStatus.CHECK with
                  gameStatus := some { round := 1, roundFinished := false,
                                       currentBetAmount := 0, pot := 0,
                                       blindTurn := 1, playTurn := 0, deck := [],
                                       cards := some initialCards,
                                       timestamp := 0 } },
              true)) := by
  have h := c7_check_street rank0 7 checkRoom2 "c" none
    { round := 1, roundFinished := false, currentBetAmount := 0, pot := 0,
      blindTurn := 1, playTurn := 2, deck := [], cards := some initialCards,
      timestamp := 0 }
    [mkPlayer "a" 100 0 0 PlayStatus.NONE [0, 1],
     mkPlayer "b" 100 0 0 PlayStatus.NONE [2, 3],
     mkPlayer "c" 100 0 0 PlayStatus.NONE [4, 5]]
    2 (mkPlayer "c" 100 0 0 PlayStatus.NONE [4, 5])
    { totalBetAmout := 0, subTotalBetAmount := 0, status := PlayStatus.NONE,
      deck := some [4, 5], winAmount := 0 }
    0 2 rfl rfl (by decide) rfl rfl (by decide) rfl (by decide) (by decide)
    (by decide)
  exact ⟨by decide, h.2.1⟩

/-! ## C6 — board growth and card disjointness

`dealCards` reveals board cards from the top of the shuffled stock
(offsets 51, 50, 49 for the flop, then 48, 47), while `startNewRound` deals
hole cards from the bottom (offsets `2i`, `2i+1` for seat `i`, so offsets
0–19 with at most 10 seats).  With a duplicate-free 52-card stock the board,
all hole cards, and the undealt middle of the stock are pairwise disjoint. -/

/-- The board after `d` reveals: stock offsets `51, 50, …, 52 - d`. -/
def boardOf (cs : List Nat) (d : Nat) : List Nat :=
  (List.range d).map (fun i => cs.getD (51 - i) 0)

/-- The undealt remainder of the stock once `lo` cards are held as hole
cards and `d` board cards are revealed: offsets `lo, …, 51 - d`. -/
def undealtOf (cs : List Nat) (lo d : Nat) : List Nat :=
  (List.range (52 - d - lo)).map (fun k => cs.getD (lo + k) 0)

/-- The hole cards of seat `i`. -/
def deckAt (room : Room) (i : Nat) : Option (List Nat) :=
  ((room.players.getD [])[i]?.bind (fun p => p.playerStatus)).bind
    (fun pst => pst.deck)

theorem boardOf_zero (cs : List Nat) : boardOf cs 0 = [] := rfl

theorem boardOf_succ (cs : List Nat) (d : Nat) :
    boardOf cs (d + 1) = boardOf cs d ++ [cs.getD (51 - d) 0] := by
  simp [boardOf, List.range_succ]

theorem length_boardOf (cs : List Nat) (d : Nat) : (boardOf cs d).length = d := by
  simp [boardOf]

theorem nodup_map_getD (cs off : List Nat) (h52 : cs.length = 52)
    (hnd : cs.Nodup) (hoff : off.Nodup) (hlt : ∀ o ∈ off, o < 52) :
    (off.map (fun o => cs.getD o 0)).Nodup := by
  refine List.Nodup.map_on ?_ hoff
  intro x hx y hy hxy
  have hx' : x < cs.length := h52 ▸ hlt x hx
  have hy' : y < cs.length := h52 ▸ hlt y hy
  rw [cs.getD_eq_getElem 0 hx', cs.getD_eq_getElem 0 hy'] at hxy
  exact (List.Nodup.getElem_inj_iff hnd).mp hxy

theorem isEligible_map_foldSubTotal (ps : List Player) (t : Nat) :
    isEligible (ps.map foldSubTotal) t = isEligible ps t := by
  unfold isEligible
  rw [List.get?_eq_getElem?, List.get?_eq_getElem?, List.getElem?_map]
  cases hget : ps[t]? with
  | none => rfl
  | some p =>
    cases hpst : p.playerStatus with
    | none => simp [foldSubTotal, hpst]
    | some pst => simp [foldSubTotal, hpst]

theorem nextTurn_isSome (room : Room) (gs : GameStatus) (ps : List Player)
    (turn? : Option Nat)
    (hg : room.gameStatus = some gs) (hp : room.players = some ps)
    (hn : room.numberOfPlayers = ps.length)
    (hall : ∀ p ∈ ps, p.playerStatus.isSome)
    (hex : ∃ s, s < ps.length ∧ isEligible ps s = true) :
    ∃ t, nextTurn room turn? = some t := by
  obtain ⟨s, hslt, hs⟩ := hex
  have hlen : 0 < ps.length := by omega
  obtain ⟨i, hi1, hin, hhit⟩ :=
    mod_hit_fwd ps.length (turnStart gs.playTurn turn?) s hlen hslt
  have hex' : ∃ i, 1 ≤ i ∧ i ≤ ps.length ∧
      isEligible ps ((turnStart gs.playTurn turn? + i * 1) % ps.length) = true :=
    ⟨i, hi1, hin, by rw [Nat.mul_one, hhit]; exact hs⟩
  obtain ⟨j, _, _, hrun, _, _⟩ :=
    findEligible_spec ps ps.length 1 rfl hall ps.length _ hex'
  exact ⟨_, by simp only [nextTurn, hg, hp, hn]; exact hrun⟩

/-- The pair (board, undealt stock) of a room's game state. -/
def gsCore (room : Room) : Option (List Nat × Option (List Nat)) :=
  room.gameStatus.map (fun g => (g.deck, g.cards))

theorem deckAt_foldSubTotal (room room' : Room) (ps : List Player)
    (hp : room.players = some ps)
    (hp' : room'.players = some (ps.map foldSubTotal)) (i : Nat) :
    deckAt room' i = deckAt room i := by
  unfold deckAt
  rw [hp, hp']
  simp only [Option.getD_some, List.getElem?_map]
  cases hget : ps[i]? with
  | none => rfl
  | some p =>
    cases hpst : p.playerStatus with
    | none => simp [foldSubTotal, hpst]
    | some pst => simp [foldSubTotal, hpst]

/-- Full evaluation of a `dealCards` call that reveals a card (board not yet
complete): street bets folded, `currentBetAmount` reset, `playTurn` moved
past the blind, and the board grown from the top of the stock. -/
theorem dealCards_eval (rank : List Nat → Nat) (room : Room) (gs : GameStatus)
    (cs : List Nat) (ps : List Player) (nt : Nat)
    (hg : room.gameStatus = some gs) (hc : gs.cards = some cs)
    (hp : room.players = some ps) (hne : ps.isEmpty = false)
    (hnt : nextTurn
      { room with players := some (ps.map foldSubTotal),
                  gameStatus := some { gs with currentBetAmount := 0 } }
      (some gs.blindTurn) = some nt)
    (h5 : gs.deck.length ≠ 5) :
    dealCards rank room = some
      ({ room with
         players := some (ps.map foldSubTotal),
         gameStatus := some { gs with
           currentBetAmount := 0,
           playTurn := nt,
           deck := if gs.deck.length = 0 then
               [cs.getD 51 0, cs.getD 50 0, cs.getD 49 0]
             else gs.deck ++ [cs.getD (51 - gs.deck.length) 0] } },
       false) := by
  unfold dealCards
  rw [hg]
  dsimp only
  rw [hc]
  dsimp only
  rw [hp]
  dsimp only
  rw [hne]
  simp only [Bool.false_eq_true, if_false]
  rw [hc] at hnt
  rw [hnt]
  dsimp only
  rw [if_neg h5]

theorem deckAt_set (room room' : Room) (ps : List Player) (k : Nat)
    (p p₁ : Player) (hp : room.players = some ps)
    (hp' : room'.players = some (ps.set k p₁)) (hget : ps[k]? = some p)
    (hdeck : p₁.playerStatus.bind (fun pst => pst.deck) =
      p.playerStatus.bind (fun pst => pst.deck)) :
    ∀ i, deckAt room' i = deckAt room i := by
  intro i
  unfold deckAt
  rw [hp, hp']
  simp only [Option.getD_some]
  by_cases hik : k = i
  · subst hik
    have hlt : k < ps.length := by
      by_contra hcon
      rw [List.getElem?_eq_none (by omega)] at hget
      cases hget
    rw [List.getElem?_set_self hlt, hget]
    simpa using hdeck
  · rw [List.getElem?_set_ne hik]

theorem applyBlind_preserves (b k : Nat) (room room' : Room)
    (h : applyBlind b k room = some room') :
    gsCore room' = gsCore room ∧ (∀ i, deckAt room' i = deckAt room i) ∧
    room'.players.map List.length = room.players.map List.length := by
  unfold applyBlind at h
  split at h
  next hg =>
    simp only [Option.some.injEq] at h
    subst h
    exact ⟨rfl, fun i => rfl, rfl⟩
  next gs hg =>
  split at h
  next hp => simp at h
  next ps hp =>
  split at h
  next hget =>
    simp only [Option.some.injEq] at h
    subst h
    exact ⟨rfl, fun i => rfl, rfl⟩
  next p hget =>
  split at h
  next hpst =>
    simp only [Option.some.injEq] at h
    subst h
    exact ⟨rfl, fun i => rfl, rfl⟩
  next pst hpst =>
  rw [List.get?_eq_getElem?] at hget
  dsimp only at h
  split at h
  next hblind => simp at h
  next hblind =>
    simp only [Option.some.injEq] at h
    subst h
    exact ⟨rfl, fun i => rfl, rfl⟩
  next hblind =>
    -- four leaves: big/small blind × paid/BUST
    split at h
    all_goals split at h
    all_goals
      simp only [Option.some.injEq] at h
      subst h
      refine ⟨?_, ?_, ?_⟩
      · simp only [gsCore, hg]
        split <;> rfl
      · exact deckAt_set room _ ps k p _ hp rfl hget (by simp [hpst])
      · simp [hp]

theorem applyBlinds_preserves (b : Nat) :
    ∀ (k : Nat) (room room' : Room), applyBlinds b k room = some room' →
    gsCore room' = gsCore room ∧ (∀ i, deckAt room' i = deckAt room i) ∧
    room'.players.map List.length = room.players.map List.length := by
  intro k
  induction k with
  | zero =>
    intro room room' h
    simp only [applyBlinds, Option.some.injEq] at h
    subst h
    exact ⟨rfl, fun i => rfl, rfl⟩
  | succ k ih =>
    intro room room' h
    unfold applyBlinds at h
    split at h
    next hmid => simp at h
    next mid hmid =>
    obtain ⟨hg1, hd1, hl1⟩ := ih room mid hmid
    obtain ⟨hg2, hd2, hl2⟩ := applyBlind_preserves b k mid room' h
    exact ⟨hg2.trans hg1, fun i => (hd2 i).trans (hd1 i),
      hl2.trans hl1⟩

theorem assignHoleCards_length (sh : List Nat) (ps : List Player) :
    (assignHoleCards sh ps).length = ps.length := by
  simp [assignHoleCards]

theorem deckAt_assignHoleCards (room₁ : Room) (sh : List Nat)
    (ps : List Player) (hp₁ : room₁.players = some (assignHoleCards sh ps))
    (i : Nat) (hi : i < ps.length) :
    deckAt room₁ i = some [sh.getD (i * 2) 0, sh.getD (i * 2 + 1) 0] := by
  unfold deckAt
  rw [hp₁]
  simp only [Option.getD_some, assignHoleCards, List.getElem?_map,
    List.getElem?_enum, List.getElem?_eq_getElem hi]
  rfl

/-- Round-start layout of the body: empty board, full stock, and hole cards
at stock offsets `2i, 2i + 1` for every seat `i`. -/
theorem startRoundWith_layout (shuffled : List Nat) (now₀ rd blindTurn : Nat)
    (room r₀ : Room) (h : startRoundWith shuffled now₀ rd blindTurn room = some r₀) :
    ∃ gs₀ ps₀, r₀.gameStatus = some gs₀ ∧ gs₀.deck = [] ∧
      gs₀.cards = some shuffled ∧ r₀.players = some ps₀ ∧
      ∀ i, i < ps₀.length →
        deckAt r₀ i = some [shuffled.getD (i * 2) 0, shuffled.getD (i * 2 + 1) 0] := by
  unfold startRoundWith at h
  dsimp only at h
  split at h
  next hp => simp at h
  next ps hp =>
  split at h
  next hab => simp at h
  next room₂ hab =>
  split at h
  next hpt => simp at h
  next pt hpt =>
  split at h
  next hg₂ => simp at h
  next gs₂ hg₂ =>
  simp only [Option.some.injEq] at h
  subst h
  obtain ⟨hgc, hdk, hlen⟩ := applyBlinds_preserves blindTurn ps.length _ room₂ hab
  have hcore : gsCore room₂ = some ([], some shuffled) := by
    rw [hgc]
    rfl
  rw [gsCore, hg₂] at hcore
  simp at hcore
  have hlen' : room₂.players.map List.length =
      some (assignHoleCards shuffled ps).length := by
    rw [hlen]
    rfl
  cases hp₂ : room₂.players with
  | none => rw [hp₂] at hlen'; cases hlen'
  | some ps₀ =>
    rw [hp₂] at hlen'
    simp at hlen'
    refine ⟨{ gs₂ with playTurn := pt, timestamp := now₀ }, ps₀, rfl,
      hcore.1, hcore.2, rfl, ?_⟩
    intro i hi
    have hi' : i < ps.length := by
      rw [assignHoleCards_length] at hlen'
      omega
    have h1 : deckAt { room₂ with
                       players := some ps₀,
                       gameStatus := some { gs₂ with
                                            playTurn := pt,
                                            timestamp := now₀ } } i =
        deckAt room₂ i := by
      unfold deckAt
      rw [hp₂]
    rw [h1, hdk i]
    exact deckAt_assignHoleCards _ shuffled ps rfl i hi'

/-- Round-start layout for `startNewRound` itself. -/
theorem startNewRound_layout (shuffled : List Nat) (randBlind now₀ : Nat)
    (room r₀ : Room) (h : startNewRound shuffled randBlind now₀ room = some r₀) :
    ∃ gs₀ ps₀, r₀.gameStatus = some gs₀ ∧ gs₀.deck = [] ∧
      gs₀.cards = some shuffled ∧ r₀.players = some ps₀ ∧
      ∀ i, i < ps₀.length →
        deckAt r₀ i = some [shuffled.getD (i * 2) 0, shuffled.getD (i * 2 + 1) 0] := by
  unfold startNewRound at h
  split at h
  next hbt => simp at h
  next blindTurn hbt => exact startRoundWith_layout _ _ _ _ _ _ h

theorem offsets_nodup_bounded (n d' : Nat) (h1 : 1 ≤ n) (h10 : n ≤ 10)
    (hd' : d' = 3 ∨ d' = 4 ∨ d' = 5) :
    (List.range (2 * n) ++ (List.range d').map (fun i => 51 - i) ++
      (List.range (52 - d' - 2 * n)).map (fun k => 2 * n + k)).Nodup ∧
    ∀ o ∈ List.range (2 * n) ++ (List.range d').map (fun i => 51 - i) ++
      (List.range (52 - d' - 2 * n)).map (fun k => 2 * n + k), o < 52 := by
  interval_cases n <;> rcases hd' with rfl | rfl | rfl <;>
    exact ⟨by decide, by decide⟩

/-- C6: (a) a new round deals an empty board, keeps the whole shuffled stock,
and places seat `i`'s two hole cards at stock offsets `2i, 2i + 1`; (b) from
any in-round state whose board holds `d ∈ {0, 3, 4}` cards taken from the
top-of-stock offsets, `dealCards` grows the board to `3` (flop) or `d + 1`
cards, leaves every seat's hole cards unchanged, and the multiset of
all hole cards (stock offsets `0, …, 2n - 1`), the grown board (offsets
`52 - d', …, 51`), and the undealt remainder (offsets `2n, …, 51 - d'`) is
duplicate-free — the three groups are pairwise disjoint. -/
theorem c6_board_growth_disjoint :
    (∀ shuffled randBlind now₀ room r₀,
      startNewRound shuffled randBlind now₀ room = some r₀ →
      ∃ gs₀ ps₀, r₀.gameStatus = some gs₀ ∧ gs₀.deck = [] ∧
        gs₀.cards = some shuffled ∧ r₀.players = some ps₀ ∧
        ∀ i, i < ps₀.length →
          deckAt r₀ i =
            some [shuffled.getD (i * 2) 0, shuffled.getD (i * 2 + 1) 0]) ∧
    (∀ rank room gs cs ps d,
      room.gameStatus = some gs → gs.cards = some cs →
      cs.length = 52 → cs.Nodup →
      room.players = some ps → room.numberOfPlayers = ps.length →
      1 ≤ ps.length → ps.length ≤ 10 →
      gs.deck = boardOf cs d → (d = 0 ∨ d = 3 ∨ d = 4) →
      (∀ p ∈ ps, p.playerStatus.isSome) →
      (∃ s, s < ps.length ∧ isEligible ps s = true) →
      ∃ r₁, dealCards rank room = some (r₁, false) ∧
        (∃ gs₁, r₁.gameStatus = some gs₁ ∧
          gs₁.deck = boardOf cs (if d = 0 then 3 else d + 1)) ∧
        (∀ i, deckAt r₁ i = deckAt room i) ∧
        ((List.range (2 * ps.length)).map (fun o => cs.getD o 0) ++
          boardOf cs (if d = 0 then 3 else d + 1) ++
          undealtOf cs (2 * ps.length) (if d = 0 then 3 else d + 1)).Nodup) := by
  constructor
  · exact fun shuffled rb now₀ room r₀ h =>
      startNewRound_layout shuffled rb now₀ room r₀ h
  · intro rank room gs cs ps d hg hc h52 hnd hp hn h1 h10 hdeck hd hall hex
    have hne : ps.isEmpty = false := by
      cases ps with
      | nil => simp at h1
      | cons a tl => rfl
    obtain ⟨nt, hnt⟩ : ∃ t, nextTurn
        { room with players := some (ps.map foldSubTotal),
                    gameStatus := some { gs with currentBetAmount := 0 } }
        (some gs.blindTurn) = some t := by
      refine nextTurn_isSome _ { gs with currentBetAmount := 0 }
        (ps.map foldSubTotal) _ rfl rfl (by simpa using hn) ?_ ?_
      · intro q hq
        rw [List.mem_map] at hq
        obtain ⟨p, hmem, hpq⟩ := hq
        subst hpq
        have := hall p hmem
        unfold foldSubTotal
        cases hps : p.playerStatus with
        | none => rw [hps] at this; cases this
        | some pst => simp [hps]
      · obtain ⟨s, hslt, hs⟩ := hex
        exact ⟨s, by simpa using hslt, by rw [isEligible_map_foldSubTotal]; exact hs⟩
    have h5 : gs.deck.length ≠ 5 := by
      rw [hdeck, length_boardOf]
      omega
    have heval := dealCards_eval rank room gs cs ps nt hg hc hp hne hnt h5
    refine ⟨_, heval, ⟨_, rfl, ?_⟩, ?_, ?_⟩
    · -- board growth 0→3, 3→4, 4→5 from top-of-stock offsets
      rcases hd with rfl | rfl | rfl
      · rw [if_pos (by rw [hdeck, length_boardOf])]
        rfl
      · rw [if_neg (by rw [hdeck, length_boardOf]; omega), hdeck, length_boardOf,
          ← boardOf_succ]
        rfl
      · rw [if_neg (by rw [hdeck, length_boardOf]; omega), hdeck, length_boardOf,
          ← boardOf_succ]
        rfl
    · exact deckAt_foldSubTotal room _ ps hp rfl
    · -- the hole-card, board and remainder offsets are pairwise distinct
      have hiv : (if d = 0 then 3 else d + 1) = 3 ∨
          (if d = 0 then 3 else d + 1) = 4 ∨ (if d = 0 then 3 else d + 1) = 5 := by
        rcases hd with rfl | rfl | rfl <;> simp
      obtain ⟨hoffnd, hofflt⟩ :=
        offsets_nodup_bounded ps.length (if d = 0 then 3 else d + 1) h1 h10 hiv
      have hrw : (List.range (2 * ps.length)).map (fun o => cs.getD o 0) ++
          boardOf cs (if d = 0 then 3 else d + 1) ++
          undealtOf cs (2 * ps.length) (if d = 0 then 3 else d + 1) =
          (List.range (2 * ps.length) ++
            (List.range (if d = 0 then 3 else d + 1)).map (fun i => 51 - i) ++
            (List.range (52 - (if d = 0 then 3 else d + 1) - 2 * ps.length)).map
              (fun k => 2 * ps.length + k)).map (fun o => cs.getD o 0) := by
        simp only [boardOf, undealtOf, List.map_append, List.map_map]
        rfl
      rw [hrw]
      exact nodup_map_getD cs _ h52 hnd hoffnd hofflt

/-- A two-seat room that has not started a round yet. -/
def freshRoom : Room :=
  { id := "r", name := "r", creator := { id := "a", name := "a", balance := 2000 },
    started := false, numberOfPlayers := 2,
    players := some [{ id := "a", name := "a", balance := 2000 },
                     { id := "b", name := "b", balance := 2000 }],
    gameStatus := none }

/-- C6 witness: the layout/growth/disjointness theorem applied to a concrete
first round in `freshRoom` and to a concrete flop deal in `sampleRoom`. -/
theorem c6_board_growth_disjoint_witness :
    (∃ r₀, startNewRound initialCards 0 7 freshRoom = some r₀ ∧
      ∃ gs₀ ps₀, r₀.gameStatus = some gs₀ ∧ gs₀.deck = [] ∧
        gs₀.cards = some initialCards ∧ r₀.players = some ps₀ ∧
        ∀ i, i < ps₀.length →
          deckAt r₀ i =
            some [initialCards.getD (i * 2) 0, initialCards.getD (i * 2 + 1) 0]) ∧
    (∃ r₁, dealCards rank0 sampleRoom = some (r₁, false) ∧
      (∃ gs₁, r₁.gameStatus = some gs₁ ∧
        gs₁.deck = boardOf initialCards (if 0 = 0 then 3 else 0 + 1)) ∧
      (∀ i, deckAt r₁ i = deckAt sampleRoom i) ∧
      ((List.range (2 * [mkPlayer "a" 100 0 0 PlayStatus.NONE [0, 1],
          mkPlayer "b" 50 0 5 PlayStatus.NONE [2, 3]].length)).map
            (fun o => initialCards.getD o 0) ++
        boardOf initialCards (if 0 = 0 then 3 else 0 + 1) ++
        undealtOf initialCards
          (2 * [mkPlayer "a" 100 0 0 PlayStatus.NONE [0, 1],
            mkPlayer "b" 50 0 5 PlayStatus.NONE [2, 3]].length)
          (if 0 = 0 then 3 else 0 + 1)).Nodup) := by
  constructor
  · obtain ⟨r₀, hr⟩ : ∃ r₀, startNewRound initialCards 0 7 freshRoom = some r₀ :=
      ⟨_, rfl⟩
    exact ⟨r₀, hr, c6_board_growth_disjoint.1 initialCards 0 7 freshRoom r₀ hr⟩
  · exact c6_board_growth_disjoint.2 rank0 sampleRoom
      { round := 1, roundFinished := false, currentBetAmount := 10, pot := 15,
        blindTurn := 1, playTurn := 0, deck := [], cards := some initialCards,
        timestamp := 0 }
      initialCards
      [mkPlayer "a" 100 0 0 PlayStatus.NONE [0, 1],
       mkPlayer "b" 50 0 5 PlayStatus.NONE [2, 3]]
      0 rfl rfl (by simp [initialCards]) (List.nodup_range 52)
      rfl rfl (by decide) (by decide) rfl (Or.inl rfl) (by decide)
      ⟨0, by decide, by decide⟩

/-! ## C2 — settlement totality with side-pot caps -/

/-- The spec's settlement configuration: four seats with `totalBetAmout`
`[20, 80, 50, 40]`, seat 2 folded, pot 190, board on `gameStatus.deck`. -/
def settleGs : GameStatus :=
  { round := 1, roundFinished := false, currentBetAmount := 30, pot := 190,
    blindTurn := 0, playTurn := 0, deck := [47, 48, 49, 50, 51],
    cards := none, timestamp := 0 }

/-- The four seats of the settlement configuration. -/
def settlePlayers : List Player :=
  [mkPlayer "p0" 1000 20 0 PlayStatus.CALL [0, 1],
   mkPlayer "p1" 1000 80 0 PlayStatus.CALL [2, 3],
   mkPlayer "p2" 1000 50 0 PlayStatus.FOLD [4, 5],
   mkPlayer "p3" 1000 40 0 PlayStatus.CALL [6, 7]]

/-- The room holding the settlement configuration. -/
def settleRoom : Room :=
  { id := "s", name := "s",
    creator := mkPlayer "p0" 1000 20 0 PlayStatus.CALL [0, 1],
    started := true, numberOfPlayers := 4,
    players := some settlePlayers, gameStatus := some settleGs }

/-- The seat list after settlement: seats 0 and 1 credited `w0`/`w1` with hand
descriptors `h0t`/`h1t`, seat 3 credited its capped 140 with descriptor `s3`. -/
def resultPs (w0 w1 : Int) (h0t h1t : Option Nat) (s3 : Nat) : List Player :=
  [{ id := "p0"
     name := "p0"
     balance := 1000 + w0
     playerStatus := some { totalBetAmout := 20
                            subTotalBetAmount := 0
                            status := PlayStatus.CALL
                            deck := some [0, 1]
                            winAmount := w0
                            handType := h0t } },
   { id := "p1"
     name := "p1"
     balance := 1000 + w1
     playerStatus := some { totalBetAmout := 80
                            subTotalBetAmount := 0
                            status := PlayStatus.CALL
                            deck := some [2, 3]
                            winAmount := w1
                            handType := h1t } },
   mkPlayer "p2" 1000 50 0 PlayStatus.FOLD [4, 5],
   { id := "p3"
     name := "p3"
     balance := 1000 + 140
     playerStatus := some { totalBetAmout := 40
                            subTotalBetAmount := 0
                            status := PlayStatus.CALL
                            deck := some [6, 7]
                            winAmount := 140
                            handType := some s3 } }]

/-- The `winAmount` recorded for seat `i` (0 for a missing seat or status). -/
def winOf (ps : List Player) (i : Nat) : Int :=
  match ps[i]? with
  | some p =>
    match p.playerStatus with
    | some pst => pst.winAmount
    | none => 0
  | none => 0

theorem settleLoop_succ (fuel : Nat) (subHands : List (Nat × Nat))
    (ps : List Player) (pot : Int) :
    settleLoop (fuel + 1) subHands ps pot =
      if pot = 0 then (ps, pot)
      else if subHands.isEmpty then (ps, pot)
      else
        settleLoop fuel (subHands.filter (fun h => !(h.2 == maxRank subHands)))
          (creditTier
            ((subHands.filter (fun h => !(h.2 == maxRank subHands))).map
              (fun h => h.1))
            (subHands.filter (fun h => h.2 == maxRank subHands)) ps pot).1
          (creditTier
            ((subHands.filter (fun h => !(h.2 == maxRank subHands))).map
              (fun h => h.1))
            (subHands.filter (fun h => h.2 == maxRank subHands)) ps pot).2 :=
  rfl

theorem settleLoop_pot0 (n : Nat) (sh : List (Nat × Nat)) (ps : List Player) :
    settleLoop n sh ps 0 = (ps, 0) := by
  cases n <;> rfl

theorem settle_eval_gt (s0 s1 s3 : Nat) (h0 : s0 < s3) (h1 : s1 < s3)
    (h01 : s1 < s0) :
    settleLoop (3 + 1) [(0, s0), (1, s1), (3, s3)] settlePlayers 190 =
      (resultPs 50 0 (some s0) none s3, 0) := by
  have e0 : (s0 == s3) = false := by simp only [beq_eq_false_iff_ne, ne_eq]; omega
  have e1 : (s1 == s3) = false := by simp only [beq_eq_false_iff_ne, ne_eq]; omega
  have e10 : (s1 == s0) = false := by simp only [beq_eq_false_iff_ne, ne_eq]; omega
  have hm1 : maxRank [(0, s0), (1, s1), (3, s3)] = s3 := by
    simp only [maxRank, List.map_cons, List.map_nil, List.foldr_cons,
      List.foldr_nil]
    omega
  have hm2 : maxRank [(0, s0), (1, s1)] = s0 := by
    simp only [maxRank, List.map_cons, List.map_nil, List.foldr_cons,
      List.foldr_nil]
    omega
  rw [settleLoop_succ, if_neg (by norm_num), if_neg (by simp), hm1]
  have hw1 : List.filter (fun h => h.2 == s3) [(0, s0), (1, s1), (3, s3)] =
      [(3, s3)] := by
    simp [List.filter_cons, e0, e1]
  have hr1 : List.filter (fun h => !(h.2 == s3)) [(0, s0), (1, s1), (3, s3)] =
      [(0, s0), (1, s1)] := by
    simp [List.filter_cons, e0, e1]
  rw [hw1, hr1]
  rw [show List.map (fun h => h.1) [((0 : Nat), s0), (1, s1)] = [0, 1] from rfl]
  rw [show creditTier [0, 1] [(3, s3)] settlePlayers 190 =
    (resultPs 0 0 none none s3, 50) from rfl]
  dsimp only
  rw [show (3 : Nat) = 2 + 1 from rfl]
  rw [settleLoop_succ, if_neg (by norm_num), if_neg (by simp), hm2]
  have hw2 : List.filter (fun h => h.2 == s0) [(0, s0), (1, s1)] = [(0, s0)] := by
    simp [List.filter_cons, e10]
  have hr2 : List.filter (fun h => !(h.2 == s0)) [(0, s0), (1, s1)] =
      [(1, s1)] := by
    simp [List.filter_cons, e10]
  rw [hw2, hr2]
  rw [show List.map (fun h => h.1) [((1 : Nat), s1)] = [1] from rfl]
  rw [show creditTier [1] [(0, s0)] (resultPs 0 0 none none s3) 50 =
    (resultPs 50 0 (some s0) none s3, 0) from rfl]
  dsimp only
  exact settleLoop_pot0 2 _ _

theorem settle_eval_lt (s0 s1 s3 : Nat) (h0 : s0 < s3) (h1 : s1 < s3)
    (h01 : s0 < s1) :
    settleLoop (3 + 1) [(0, s0), (1, s1), (3, s3)] settlePlayers 190 =
      (resultPs 0 50 none (some s1) s3, 0) := by
  have e0 : (s0 == s3) = false := by simp only [beq_eq_false_iff_ne, ne_eq]; omega
  have e1 : (s1 == s3) = false := by simp only [beq_eq_false_iff_ne, ne_eq]; omega
  have e01 : (s0 == s1) = false := by simp only [beq_eq_false_iff_ne, ne_eq]; omega
  have hm1 : maxRank [(0, s0), (1, s1), (3, s3)] = s3 := by
    simp only [maxRank, List.map_cons, List.map_nil, List.foldr_cons,
      List.foldr_nil]
    omega
  have hm2 : maxRank [(0, s0), (1, s1)] = s1 := by
    simp only [maxRank, List.map_cons, List.map_nil, List.foldr_cons,
      List.foldr_nil]
    omega
  rw [settleLoop_succ, if_neg (by norm_num), if_neg (by simp), hm1]
  have hw1 : List.filter (fun h => h.2 == s3) [(0, s0), (1, s1), (3, s3)] =
      [(3, s3)] := by
    simp [List.filter_cons, e0, e1]
  have hr1 : List.filter (fun h => !(h.2 == s3)) [(0, s0), (1, s1), (3, s3)] =
      [(0, s0), (1, s1)] := by
    simp [List.filter_cons, e0, e1]
  rw [hw1, hr1]
  rw [show List.map (fun h => h.1) [((0 : Nat), s0), (1, s1)] = [0, 1] from rfl]
  rw [show creditTier [0, 1] [(3, s3)] settlePlayers 190 =
    (resultPs 0 0 none none s3, 50) from rfl]
  dsimp only
  rw [show (3 : Nat) = 2 + 1 from rfl]
  rw [settleLoop_succ, if_neg (by norm_num), if_neg (by simp), hm2]
  have hw2 : List.filter (fun h => h.2 == s1) [(0, s0), (1, s1)] = [(1, s1)] := by
    simp [List.filter_cons, e01]
  have hr2 : List.filter (fun h => !(h.2 == s1)) [(0, s0), (1, s1)] =
      [(0, s0)] := by
    simp [List.filter_cons, e01]
  rw [hw2, hr2]
  rw [show List.map (fun h => h.1) [((0 : Nat), s0)] = [0] from rfl]
  rw [show creditTier [0] [(1, s1)] (resultPs 0 0 none none s3) 50 =
    (resultPs 0 50 none (some s1) s3, 0) from rfl]
  dsimp only
  exact settleLoop_pot0 2 _ _

theorem settle_eval_eq (s0 s1 s3 : Nat) (h0 : s0 < s3) (h1 : s1 < s3)
    (h01 : s0 = s1) :
    settleLoop (3 + 1) [(0, s0), (1, s1), (3, s3)] settlePlayers 190 =
      (resultPs 25 25 (some s0) (some s1) s3, 0) := by
  have e0 : (s0 == s3) = false := by simp only [beq_eq_false_iff_ne, ne_eq]; omega
  have e1 : (s1 == s3) = false := by simp only [beq_eq_false_iff_ne, ne_eq]; omega
  have e10 : (s1 == s0) = true := by simp only [beq_iff_eq]; omega
  have hm1 : maxRank [(0, s0), (1, s1), (3, s3)] = s3 := by
    simp only [maxRank, List.map_cons, List.map_nil, List.foldr_cons,
      List.foldr_nil]
    omega
  have hm2 : maxRank [(0, s0), (1, s1)] = s0 := by
    simp only [maxRank, List.map_cons, List.map_nil, List.foldr_cons,
      List.foldr_nil]
    omega
  rw [settleLoop_succ, if_neg (by norm_num), if_neg (by simp), hm1]
  have hw1 : List.filter (fun h => h.2 == s3) [(0, s0), (1, s1), (3, s3)] =
      [(3, s3)] := by
    simp [List.filter_cons, e0, e1]
  have hr1 : List.filter (fun h => !(h.2 == s3)) [(0, s0), (1, s1), (3, s3)] =
      [(0, s0), (1, s1)] := by
    simp [List.filter_cons, e0, e1]
  rw [hw1, hr1]
  rw [show List.map (fun h => h.1) [((0 : Nat), s0), (1, s1)] = [0, 1] from rfl]
  rw [show creditTier [0, 1] [(3, s3)] settlePlayers 190 =
    (resultPs 0 0 none none s3, 50) from rfl]
  dsimp only
  rw [show (3 : Nat) = 2 + 1 from rfl]
  rw [settleLoop_succ, if_neg (by norm_num), if_neg (by simp), hm2]
  have hw2 : List.filter (fun h => h.2 == s0) [(0, s0), (1, s1)] =
      [(0, s0), (1, s1)] := by
    simp [List.filter_cons, e10]
  have hr2 : List.filter (fun h => !(h.2 == s0)) [(0, s0), (1, s1)] = [] := by
    simp [List.filter_cons, e10]
  rw [hw2, hr2]
  rw [show List.map (fun h => h.1) ([] : List (Nat × Nat)) = [] from rfl]
  have hct : creditTier [] [(0, s0), (1, s1)] (resultPs 0 0 none none s3) 50 =
      (resultPs 25 25 (some s0) (some s1) s3, 0) := by
    calc creditTier [] [(0, s0), (1, s1)] (resultPs 0 0 none none s3) 50
        = creditTier [] [(1, s1)]
            (creditWinner [] ([(1, s1)].length + 1) 0 s0
              (resultPs 0 0 none none s3) 50).1
            (creditWinner [] ([(1, s1)].length + 1) 0 s0
              (resultPs 0 0 none none s3) 50).2 := by rfl
      _ = creditTier [] [(1, s1)] (resultPs 25 0 (some s0) none s3) 25 := by
            norm_num
            rw [show creditWinner [] 2 0 s0
              (resultPs 0 0 none none s3) 50 =
              (resultPs 25 0 (some s0) none s3, 25) from by rfl]
      _ = (resultPs 25 25 (some s0) (some s1) s3, 0) := by rfl
  rw [hct]
  dsimp only
  exact settleLoop_pot0 2 _ _

theorem checkWinning_settleRoom (rank : List Nat → Nat) (r : List Player × Int)
    (h : settleLoop (3 + 1)
      [(0, rank [0, 1, 47, 48, 49, 50, 51]),
       (1, rank [2, 3, 47, 48, 49, 50, 51]),
       (3, rank [6, 7, 47, 48, 49, 50, 51])] settlePlayers 190 = r) :
    checkWinning rank settleRoom = some { settleRoom with
      players := some r.1,
      gameStatus := some { settleGs with pot := r.2, roundFinished := true } } := by
  unfold checkWinning
  rw [show settleRoom.gameStatus = some settleGs from rfl]
  dsimp only
  rw [show settleRoom.players = some settlePlayers from rfl]
  dsimp only
  rw [show (settlePlayers.enum.mapM fun ip => handFor rank settleGs.deck ip.1 ip.2) =
    some [some (0, rank [0, 1, 47, 48, 49, 50, 51]),
          some (1, rank [2, 3, 47, 48, 49, 50, 51]),
          none,
          some (3, rank [6, 7, 47, 48, 49, 50, 51])] from rfl]
  dsimp only
  rw [show List.reduceOption
      [some ((0 : Nat), rank [0, 1, 47, 48, 49, 50, 51]),
       some (1, rank [2, 3, 47, 48, 49, 50, 51]),
       none,
       some (3, rank [6, 7, 47, 48, 49, 50, 51])] =
    [(0, rank [0, 1, 47, 48, 49, 50, 51]),
     (1, rank [2, 3, 47, 48, 49, 50, 51]),
     (3, rank [6, 7, 47, 48, 49, 50, 51])] from rfl]
  rw [show List.length
      [((0 : Nat), rank [0, 1, 47, 48, 49, 50, 51]),
       (1, rank [2, 3, 47, 48, 49, 50, 51]),
       (3, rank [6, 7, 47, 48, 49, 50, 51])] = 3 from rfl]
  rw [show settleGs.pot = 190 from rfl]
  rw [h]

/-- C2: settlement totality with side-pot caps.  On the spec's configuration
(`totalBetAmout` `[20, 80, 50, 40]`, seat 2 folded, pot 190), whenever seat 3
(the 40-chip seat) holds the strictly best hand, `checkWinning` credits it
exactly 140 — within its 160 cap (its own 40 plus `min(40, x)` from each other
seat) — credits the folded seat nothing, lets the remaining 50 flow to the
next-best non-folded hand(s) (split on a tie), empties the pot, and credits
exactly the 190 chips that were in the pot. -/
theorem c2_settlement (rank : List Nat → Nat)
    (h0 : rank [0, 1, 47, 48, 49, 50, 51] < rank [6, 7, 47, 48, 49, 50, 51])
    (h1 : rank [2, 3, 47, 48, 49, 50, 51] < rank [6, 7, 47, 48, 49, 50, 51]) :
    ∃ r' ps' gs', checkWinning rank settleRoom = some r' ∧
      r'.players = some ps' ∧ r'.gameStatus = some gs' ∧
      gs'.pot = 0 ∧ gs'.roundFinished = true ∧
      winOf ps' 3 = 140 ∧ winOf ps' 3 ≤ 160 ∧ winOf ps' 2 = 0 ∧
      winOf ps' 0 + winOf ps' 1 = 50 ∧
      winOf ps' 0 + winOf ps' 1 + winOf ps' 2 + winOf ps' 3 = 190 ∧
      balSum ps' = balSum settlePlayers + 190 ∧
      (rank [2, 3, 47, 48, 49, 50, 51] < rank [0, 1, 47, 48, 49, 50, 51] →
        winOf ps' 0 = 50 ∧ winOf ps' 1 = 0) ∧
      (rank [0, 1, 47, 48, 49, 50, 51] < rank [2, 3, 47, 48, 49, 50, 51] →
        winOf ps' 0 = 0 ∧ winOf ps' 1 = 50) ∧
      (rank [0, 1, 47, 48, 49, 50, 51] = rank [2, 3, 47, 48, 49, 50, 51] →
        winOf ps' 0 = 25 ∧ winOf ps' 1 = 25) := by
  rcases Nat.lt_trichotomy (rank [0, 1, 47, 48, 49, 50, 51])
      (rank [2, 3, 47, 48, 49, 50, 51]) with hlt | heq | hgt
  · refine ⟨_, _, _,
      checkWinning_settleRoom rank _ (settle_eval_lt _ _ _ h0 h1 hlt),
      rfl, rfl, rfl, rfl, ?_, ?_, ?_, ?_, ?_, ?_, ?_, ?_, ?_⟩
    · norm_num [winOf, resultPs, mkPlayer]
    · norm_num [winOf, resultPs, mkPlayer]
    · norm_num [winOf, resultPs, mkPlayer]
    · norm_num [winOf, resultPs, mkPlayer]
    · norm_num [winOf, resultPs, mkPlayer]
    · norm_num [balSum, resultPs, mkPlayer, settlePlayers]
    · intro h
      exact absurd h (by omega)
    · intro h
      norm_num [winOf, resultPs, mkPlayer]
    · intro h
      exact absurd h (by omega)
  · refine ⟨_, _, _,
      checkWinning_settleRoom rank _ (settle_eval_eq _ _ _ h0 h1 heq),
      rfl, rfl, rfl, rfl, ?_, ?_, ?_, ?_, ?_, ?_, ?_, ?_, ?_⟩
    · norm_num [winOf, resultPs, mkPlayer]
    · norm_num [winOf, resultPs, mkPlayer]
    · norm_num [winOf, resultPs, mkPlayer]
    · norm_num [winOf, resultPs, mkPlayer]
    · norm_num [winOf, resultPs, mkPlayer]
    · norm_num [balSum, resultPs, mkPlayer, settlePlayers]
    · intro h
      exact absurd h (by omega)
    · intro h
      exact absurd h (by omega)
    · intro h
      norm_num [winOf, resultPs, mkPlayer]
  · refine ⟨_, _, _,
      checkWinning_settleRoom rank _ (settle_eval_gt _ _ _ h0 h1 hgt),
      rfl, rfl, rfl, rfl, ?_, ?_, ?_, ?_, ?_, ?_, ?_, ?_, ?_⟩
    · norm_num [winOf, resultPs, mkPlayer]
    · norm_num [winOf, resultPs, mkPlayer]
    · norm_num [winOf, resultPs, mkPlayer]
    · norm_num [winOf, resultPs, mkPlayer]
    · norm_num [winOf, resultPs, mkPlayer]
    · norm_num [balSum, resultPs, mkPlayer, settlePlayers]
    · intro h
      norm_num [winOf, resultPs, mkPlayer]
    · intro h
      exact absurd h (by omega)
    · intro h
      exact absurd h (by omega)

/-- The head card as a stand-in hand ranking: seat 3's hole cards start with
card 6, beating seats 0 (card 0) and 1 (card 2). -/
def headRank : List Nat → Nat := fun l => l.headD 0

/-- C2 witness: the settlement theorem applied to the concrete ranking
`headRank`, under which seat 3 strictly beats seats 0 and 1, and seat 0
strictly loses to seat 1. -/
theorem c2_settlement_witness :
    headRank [0, 1, 47, 48, 49, 50, 51] < headRank [6, 7, 47, 48, 49, 50, 51] ∧
    headRank [2, 3, 47, 48, 49, 50, 51] < headRank [6, 7, 47, 48, 49, 50, 51] ∧
    (∃ r' ps' gs', checkWinning headRank settleRoom = some r' ∧
      r'.players = some ps' ∧ r'.gameStatus = some gs' ∧
      gs'.pot = 0 ∧ gs'.roundFinished = true ∧
      winOf ps' 3 = 140 ∧ winOf ps' 3 ≤ 160 ∧ winOf ps' 2 = 0 ∧
      winOf ps' 0 + winOf ps' 1 = 50 ∧
      winOf ps' 0 + winOf ps' 1 + winOf ps' 2 + winOf ps' 3 = 190 ∧
      balSum ps' = balSum settlePlayers + 190 ∧
      (headRank [2, 3, 47, 48, 49, 50, 51] < headRank [0, 1, 47, 48, 49, 50, 51] →
        winOf ps' 0 = 50 ∧ winOf ps' 1 = 0) ∧
      (headRank [0, 1, 47, 48, 49, 50, 51] < headRank [2, 3, 47, 48, 49, 50, 51] →
        winOf ps' 0 = 0 ∧ winOf ps' 1 = 50) ∧
      (headRank [0, 1, 47, 48, 49, 50, 51] = headRank [2, 3, 47, 48, 49, 50, 51] →
        winOf ps' 0 = 25 ∧ winOf ps' 1 = 25)) :=
  ⟨by decide, by decide, c2_settlement headRank (by decide) (by decide)⟩

/-! ## C8 — the shuffle: always a permutation, never uniform -/

theorem swapAt_perm (l : List Nat) (a b : Nat) (ha : a < l.length)
    (hb : b < l.length) : (swapAt l a b).Perm l := by
  rw [List.perm_iff_count]
  intro x
  unfold swapAt
  have hga : l.getD a 0 = l[a] := by
    simp [List.getD_eq_getElem?_getD, List.getElem?_eq_getElem, ha]
  have hgb : l.getD b 0 = l[b] := by
    simp [List.getD_eq_getElem?_getD, List.getElem?_eq_getElem, hb]
  rw [hga, hgb]
  have hmema : l[a] ∈ l := List.getElem_mem ha
  have hb2 : b < (l.set a l[b]).length := by simpa using hb
  rw [List.count_set _ _ _ _ hb2, List.count_set _ _ _ _ ha]
  by_cases hab : a = b
  · subst hab
    simp only [List.getElem_set_self]
    cases hA : (l[a] == x)
    · simp [hA]
    · have hx : x ∈ l := by
        rw [beq_iff_eq] at hA
        exact hA ▸ hmema
      have hpos : 0 < l.count x := List.count_pos_iff.mpr hx
      simp only [hA, if_true]
      omega
  · simp only [List.getElem_set_ne hab]
    cases hA : (l[a] == x) <;> cases hB : (l[b] == x)
    · simp [hA, hB]
    · simp [hA, hB]
    · have hx : x ∈ l := by
        rw [beq_iff_eq] at hA
        exact hA ▸ hmema
      have hpos : 0 < l.count x := List.count_pos_iff.mpr hx
      simp only [hA, hB, if_true, if_false]
      omega
    · have hx : x ∈ l := by
        rw [beq_iff_eq] at hA
        exact hA ▸ hmema
      have hpos : 0 < l.count x := List.count_pos_iff.mpr hx
      simp only [hA, hB, if_true]
      omega

theorem applySwaps_perm (sw : List (Fin 52 × Fin 52)) :
    ∀ l : List Nat, l.length = 52 → (applySwaps sw l).Perm l := by
  induction sw with
  | nil =>
    intro l _
    exact List.Perm.refl l
  | cons p rest ih =>
    intro l hl
    have ha : p.1.val < l.length := by rw [hl]; exact p.1.isLt
    have hb : p.2.val < l.length := by rw [hl]; exact p.2.isLt
    have hlen : (swapAt l p.1.val p.2.val).length = 52 := by
      unfold swapAt
      simp [hl]
    exact (ih _ hlen).trans (swapAt_perm l p.1.val p.2.val ha hb)

/-- Every run of `shuffleCards` returns a permutation of the 52-card stock. -/
theorem shuffleCards_perm (r : Fin 1000 → Fin 52 × Fin 52) :
    (shuffleCards r).Perm initialCards := by
  unfold shuffleCards
  exact applySwaps_perm _ _ (by simp [initialCards])

/-- The 1000-transposition shuffle cannot be uniform: `52!` would have to
divide the number `2704 ^ 1000` of randomness sources, but `7` divides `52!`
and not `2704 ^ 1000`. -/
theorem shuffle_not_uniform : ¬ ShuffleUniform := by
  intro h
  classical
  have hmemP : ∀ r : Fin 1000 → Fin 52 × Fin 52,
      shuffleCards r ∈ initialCards.permutations.toFinset := by
    intro r
    rw [List.mem_toFinset, List.mem_permutations]
    exact shuffleCards_perm r
  have htotal : (Finset.univ : Finset (Fin 1000 → Fin 52 × Fin 52)).card =
      ∑ p in initialCards.permutations.toFinset,
        (Finset.univ.filter (fun r => shuffleCards r = p)).card :=
    Finset.card_eq_sum_card_fiberwise (fun r _ => hmemP r)
  have hconst : ∀ p ∈ initialCards.permutations.toFinset,
      (Finset.univ.filter (fun r => shuffleCards r = p)).card =
        (Finset.univ.filter (fun r => shuffleCards r = initialCards)).card := by
    intro p hp
    rw [List.mem_toFinset, List.mem_permutations] at hp
    exact h p initialCards hp (List.Perm.refl _)
  have hnd : initialCards.Nodup := List.nodup_range 52
  have hcardP : initialCards.permutations.toFinset.card = Nat.factorial 52 := by
    rw [List.toFinset_card_of_nodup (List.nodup_permutations _ hnd)]
    rw [List.length_permutations]
    rw [show initialCards.length = 52 from rfl]
  have hcardU : (Finset.univ : Finset (Fin 1000 → Fin 52 × Fin 52)).card =
      2704 ^ 1000 := by
    rw [Finset.card_univ, Fintype.card_fun, Fintype.card_prod,
      Fintype.card_fin, Fintype.card_fin]
  have hdvd : Nat.factorial 52 ∣ 2704 ^ 1000 := by
    refine ⟨(Finset.univ.filter
      (fun r => shuffleCards r = initialCards)).card, ?_⟩
    rw [← hcardU, htotal, Finset.sum_const_nat hconst, hcardP]
  have h7 : (7 : Nat) ∣ 2704 ^ 1000 :=
    dvd_trans (Nat.dvd_factorial (by norm_num) (by norm_num)) hdvd
  have h7' : (7 : Nat) ∣ 2704 := (Nat.Prime.dvd_of_dvd_pow (by norm_num)) h7
  norm_num at h7'

/-- C8 counterexample: the shuffle's output distribution is NOT uniform over
the orderings of the stock, refuting the "true Fisher–Yates, each of the 52!
orderings equally likely" part of the claim. -/
theorem c8_counterexample : ¬ ShuffleUniform := shuffle_not_uniform

/-- C8 (amended): `shuffleCards` always returns a permutation of the 52 card
ids, but it is 1000 uniformly random transpositions, not Fisher–Yates, and its
output distribution over the 52! orderings is not uniform. -/
theorem c8_shuffle :
    (∀ r : Fin 1000 → Fin 52 × Fin 52, (shuffleCards r).Perm initialCards) ∧
    ¬ ShuffleUniform :=
  ⟨shuffleCards_perm, shuffle_not_uniform⟩

end PokerGame
